import Mathlib

/-!
# Verification of the TSR data-normalization / metrics / quality-gate core

Shallow embedding of the core pipeline of the AiAssistedTestReportGeneration
repository (`src/tools.py`: `normalize_columns`, `compute_metrics`;
`src/quality_gates.py`: `QualityGateEvaluator.evaluate_release_recommendation`),
together with theorems settling the stated claims about it.

Conventions of the embedding:
* A canonical record (one row of the normalized DataFrame) is a `Row`
  structure whose fields mirror the ten canonical columns.  After
  `normalize_columns`, every one of these columns is present and every cell of
  the string-typed columns is an actual string (never `NaN`), because the
  normalizer ends each of those columns with `.fillna(...)`/`.astype(str)`.
  Consequently `pd.notna(...)` is `True` on every such cell, and the embedding
  resolves those Python checks to `True`.
* Python `float` arithmetic is idealized as exact rational arithmetic (`ℚ`)
  and Python's `round` (banker's rounding) as `roundHalfEven` on `ℚ`.
* Python dicts built by `value_counts().to_dict()` plus the
  "ensure-all-categories" loops are modeled as association lists
  (`List (String × Nat)`); dict key-insertion order differs from pandas'
  count-descending order, but every stated property only reads the mapping
  through `lookup`, which is order-independent.
* `compute_metrics` mutates its argument DataFrame in place in the
  priority→severity fallback step (`df['Severity'] = ...`).  The embedding
  makes this explicit by returning the final record set next to the metrics:
  `computeMetrics : List Row → Metrics × List Row`, where the second component
  is the record set as the caller observes it after the call.
* The per-module defect-density block of `compute_metrics` is not referenced
  by any stated property and is not part of the embedded `Metrics` bundle.
-/

namespace TSR

/-- One canonical record: a row of the normalized DataFrame, with the ten
canonical columns of `tools.py` (`CANONICAL_COLUMNS.values()`).  `run` is
numeric after normalization; all other fields are strings (possibly empty). -/
structure Row where
  module : String := ""
  testCaseID : String := ""
  description : String := ""
  run : ℚ := 1
  result : String := ""
  bugID : String := ""
  priority : String := ""
  severity : String := ""
  duration : String := ""
  tester : String := ""
deriving DecidableEq, Repr

/-- `metrics['summary']` of `compute_metrics`. -/
structure Summary where
  total : Nat
  executed : Nat
  passed : Nat
  failed : Nat
  blocked : Nat
  skipped : Nat
  pass_pct : ℚ
deriving DecidableEq, Repr

/-- One entry of `metrics['key_bugs']`. -/
structure BugInfo where
  id : String
  module : String
  severity : String
  priority : String
  status : String
  assigned_to : String
deriving DecidableEq, Repr

/-- The metrics bundle produced by `compute_metrics` (the defect-density
block, which no stated property mentions, is elided). -/
structure Metrics where
  summary : Summary
  fail_by_module : List (String × Nat)
  defects_by_severity : List (String × Nat)
  defects_by_priority : List (String × Nat)
  flaky : List String
  key_bugs : List BugInfo
deriving DecidableEq, Repr

/-- Helper for `uniqueList`: distinct values in order of first appearance,
skipping those already seen. -/
def uniqueAux (seen : List String) : List String → List String
  | [] => []
  | x :: xs => if x ∈ seen then uniqueAux seen xs else x :: uniqueAux (x :: seen) xs

/-- pandas `Series.unique()`: the distinct values in order of first
appearance. -/
def uniqueList (l : List String) : List String := uniqueAux [] l

/-- `value_counts().to_dict()`: each distinct value with its number of
occurrences.  (pandas lists keys in descending-count order; we use
first-appearance order, which is equivalent for every property stated below
since the mapping is only read via `lookup`.) -/
def valueCounts (l : List String) : List (String × Nat) :=
  (uniqueList l).map (fun v => (v, l.count v))

/-- The `for cat in [...]: if cat not in d: d[cat] = 0` loops of
`compute_metrics`: add every missing category with an explicit 0 count. -/
def ensureCategories (cats : List String) (m : List (String × Nat)) :
    List (String × Nat) :=
  cats.foldl (fun acc c => if (acc.lookup c).isSome then acc else acc ++ [(c, 0)]) m

/-- Banker's rounding of a rational to an integer (idealization of Python's
`round` on exact values). -/
def roundHalfEven (q : ℚ) : ℤ :=
  let f := ⌊q⌋
  let r := q - f
  if r < 1/2 then f
  else if 1/2 < r then f + 1
  else if f % 2 = 0 then f else f + 1

/-- `round(x, 2)`: round to two decimal places. -/
def round2 (q : ℚ) : ℚ := (roundHalfEven (q * 100) : ℚ) / 100

/-- The summary block of `compute_metrics` (tools.py lines 313-330). -/
def computeSummary (rows : List Row) : Summary :=
  let total := rows.length
  let executed := rows.countP
    (fun r => r.result = "Pass" || r.result = "Fail" || r.result = "Blocked")
  let passed := rows.countP (fun r => r.result = "Pass")
  let failed := rows.countP (fun r => r.result = "Fail")
  let blocked := rows.countP (fun r => r.result = "Blocked")
  let skipped := rows.countP (fun r => r.result = "Skipped")
  { total := total, executed := executed, passed := passed, failed := failed,
    blocked := blocked, skipped := skipped,
    pass_pct := round2 (if executed > 0 then (passed : ℚ) / executed * 100 else 0) }

/-- `fail_by_module`: counts of `Fail` rows grouped by `Module`. -/
def failByModule (rows : List Row) : List (String × Nat) :=
  valueCounts ((rows.filter (fun r => r.result = "Fail")).map (·.module))

/-- `defects_by_severity` before the category fill: rows with both a
non-empty `Severity` and a non-empty `BugID`, counted by severity.  (On
canonical rows every cell is a string, so the `notna` halves of the pandas
filter are always true.) -/
def defectSeverityCounts (rows : List Row) : List (String × Nat) :=
  ensureCategories ["Critical", "Major", "Medium", "Minor"]
    (valueCounts ((rows.filter
      (fun r => r.severity ≠ "" && r.bugID ≠ "")).map (·.severity)))

/-- `defects_by_priority`, analogously. -/
def defectPriorityCounts (rows : List Row) : List (String × Nat) :=
  ensureCategories ["Highest", "High", "Medium", "Low"]
    (valueCounts ((rows.filter
      (fun r => r.priority ≠ "" && r.bugID ≠ "")).map (·.priority)))

/-- The `priority_to_severity` dict of the fallback step. -/
def PRIORITY_TO_SEVERITY : List (String × String) :=
  [("Highest", "Critical"), ("High", "Major"), ("Medium", "Medium"), ("Low", "Minor")]

/-- One row under `df['Severity'] = df['Priority'].map(priority_to_severity).fillna('')`:
the severity cell is overwritten with the mapped priority (empty on a map miss). -/
def deriveSeverity (r : Row) : Row :=
  { r with severity := (PRIORITY_TO_SEVERITY.lookup r.priority).getD "" }

/-- The guard of the fallback step on canonical rows: the `Severity` column is
present and all-string, so the pandas condition reduces to "every severity is
empty and some priority is non-empty".  (`compute_metrics` only reaches this
test on non-empty input, for which `isna().all()` is false on an all-string
column.) -/
def severityFallbackCond (rows : List Row) : Bool :=
  rows.all (fun r => r.severity = "") && rows.any (fun r => r.priority ≠ "")

/-- The result values of all rows carrying the given `TestCaseID`. -/
def resultsOf (rows : List Row) (tid : String) : List String :=
  (rows.filter (fun r => r.testCaseID = tid)).map (·.result)

/-- The flaky-test scan (tools.py lines 441-450): every distinct non-empty
`TestCaseID` whose observed results include both `Pass` and `Fail`.  (`'Pass'
in test_results` is membership in the `unique()` array, which is membership in
the result list.) -/
def flakyTests (rows : List Row) : List String :=
  (uniqueList (rows.map (·.testCaseID))).filter
    (fun tid => tid ≠ "" && "Pass" ∈ resultsOf rows tid && "Fail" ∈ resultsOf rows tid)

/-- The `bug_info` dict built for a row in the key-bug scan.  On canonical
rows every referenced cell is a string, so each `pd.notna(...)` guard is true
and each `row.get(col, default)` returns the cell itself. -/
def mkBugInfo (r : Row) : BugInfo :=
  { id := r.bugID, module := r.module, severity := r.severity,
    priority := r.priority, status := "Open", assigned_to := r.tester }

/-- The key-bug scan (tools.py lines 452-470; the `Module` column is always
present on canonical rows, so the no-module fallback branch is dead): rows
with non-empty `BugID` and non-empty `Module`, appended in order, skipping a
row whose `BugID` is already present. -/
def keyBugs (rows : List Row) : List BugInfo :=
  (rows.filter (fun r => r.bugID ≠ "" && r.module ≠ "")).foldl
    (fun acc r =>
      if acc.any (fun b => b.id = r.bugID) then acc else acc ++ [mkBugInfo r]) []

/-- The early-return metrics bundle for an empty DataFrame
(tools.py lines 298-309). -/
def emptyMetrics : Metrics :=
  { summary := { total := 0, executed := 0, passed := 0, failed := 0,
                 blocked := 0, skipped := 0, pass_pct := 0 },
    fail_by_module := [],
    defects_by_severity :=
      [("Critical", 0), ("Major", 0), ("Medium", 0), ("Minor", 0)],
    defects_by_priority :=
      [("Highest", 0), ("High", 0), ("Medium", 0), ("Low", 0)],
    flaky := [],
    key_bugs := [] }

/-- `compute_metrics` on a canonical record set.  The second component of the
result is the record set as it stands after the call: the fallback step
assigns the derived severities into the caller's DataFrame in place, and the
flaky/key-bug scans (which run after it) observe the mutated rows. -/
def computeMetrics (rows : List Row) : Metrics × List Row :=
  if rows.isEmpty then (emptyMetrics, rows)
  else
    let rows2 := if severityFallbackCond rows then rows.map deriveSeverity else rows
    ({ summary := computeSummary rows,
       fail_by_module := failByModule rows,
       defects_by_severity :=
         if severityFallbackCond rows then defectSeverityCounts rows2
         else defectSeverityCounts rows,
       defects_by_priority := defectPriorityCounts rows,
       flaky := flakyTests rows2,
       key_bugs := keyBugs rows2 }, rows2)

/-! ## Raw DataFrames and `normalize_columns` (tools.py lines 210-283) -/

/-- A cell of a raw pandas DataFrame: a string, a number, or a missing value
(`NaN`). -/
inductive Value where
  | str (s : String)
  | num (q : ℚ)
  | na
deriving DecidableEq, Repr

/-- A DataFrame: labelled columns and positionally aligned rows.  (pandas
permits duplicate column labels, hence a plain label list.) -/
structure DataFrame where
  cols : List String
  rows : List (List Value)
deriving DecidableEq, Repr

/-- Python `str.strip()` (both-ends whitespace removal) on a character list. -/
def pyStripList (l : List Char) : List Char :=
  ((l.dropWhile Char.isWhitespace).reverse.dropWhile Char.isWhitespace).reverse

/-- Python `str.strip()`. -/
def pyStrip (s : String) : String := ⟨pyStripList s.data⟩

/-- Python `str.lower()` character-wise (the tables below only contain ASCII
keys, for which `Char.toLower` agrees with Python). -/
def pyLower (s : String) : String := ⟨s.data.map Char.toLower⟩

/-- `s.lower().strip()`: the normalization applied to column names before the
alias lookup, and to Result/Severity/Priority cell values before the value
table lookup. -/
def lowerStrip (s : String) : String := pyStrip (pyLower s)

/-- The `CANONICAL_COLUMNS` alias table of tools.py, in source order. -/
def CANONICAL_COLUMNS : List (String × String) :=
  [("module", "Module"), ("testcaseid", "TestCaseID"), ("test_case_id", "TestCaseID"),
   ("testcase", "TestCaseID"), ("tc_id", "TestCaseID"), ("tcid", "TestCaseID"),
   ("description", "Description"), ("desc", "Description"), ("run", "Run"),
   ("result", "Result"), ("status", "Result"), ("outcome", "Result"),
   ("bugid", "BugID"), ("bug_id", "BugID"), ("defect_id", "BugID"),
   ("priority", "Priority"), ("severity", "Severity"), ("duration", "Duration"),
   ("tester", "Tester"), ("executed_by", "Tester")]

/-- `CANONICAL_COLUMNS.values()` as effectively iterated by the
missing-column fill loop: the `not in` check admits each canonical name once,
in first-appearance order. -/
def canonicalOrder : List String :=
  ["Module", "TestCaseID", "Description", "Run", "Result", "BugID", "Priority",
   "Severity", "Duration", "Tester"]

/-- The `RESULT_MAPPINGS` table of tools.py. -/
def RESULT_MAPPINGS : List (String × String) :=
  [("pass", "Pass"), ("passed", "Pass"), ("p", "Pass"),
   ("fail", "Fail"), ("failed", "Fail"), ("f", "Fail"),
   ("blocked", "Blocked"), ("block", "Blocked"), ("b", "Blocked"),
   ("skip", "Skipped"), ("skipped", "Skipped"), ("s", "Skipped"),
   ("not executed", "Not Executed"), ("not_executed", "Not Executed"),
   ("pending", "Not Executed"), ("", "Not Executed")]

/-- The `SEVERITY_MAPPINGS` table of tools.py. -/
def SEVERITY_MAPPINGS : List (String × String) :=
  [("critical", "Critical"), ("crit", "Critical"), ("1", "Critical"),
   ("major", "Major"), ("maj", "Major"), ("2", "Major"),
   ("medium", "Medium"), ("med", "Medium"), ("3", "Medium"),
   ("minor", "Minor"), ("min", "Minor"), ("4", "Minor")]

/-- The `PRIORITY_MAPPINGS` table of tools.py. -/
def PRIORITY_MAPPINGS : List (String × String) :=
  [("highest", "Highest"), ("high", "High"), ("medium", "Medium"), ("low", "Low"),
   ("1", "Highest"), ("2", "High"), ("3", "Medium"), ("4", "Low")]

/-- Column renaming: a column whose lower-cased, stripped name is a known
alias is renamed to its canonical name; any other column is kept unchanged
(the code builds `column_mapping` only for recognized names). -/
def renameCol (c : String) : String :=
  (CANONICAL_COLUMNS.lookup (lowerStrip c)).getD c

/-- `df_clean.rename(columns=column_mapping)`. -/
def renameStep (df : DataFrame) : DataFrame :=
  { df with cols := df.cols.map renameCol }

/-- One step of the missing-column fill: `if canonical_col not in
df_clean.columns: df_clean[canonical_col] = ''`. -/
def addMissingStep (acc : DataFrame) (c : String) : DataFrame :=
  if c ∈ acc.cols then acc
  else { cols := acc.cols ++ [c],
         rows := acc.rows.map (fun row => row ++ [Value.str ""]) }

/-- `for canonical_col in CANONICAL_COLUMNS.values(): if absent, add an
empty-string column (df_clean[c] = '')`. -/
def addMissing (df : DataFrame) : DataFrame :=
  canonicalOrder.foldl addMissingStep df

/-- Rendering of a numeric cell under `astype(str)`.  Only the fact that the
result is a string is relied upon below; the precise digits pandas prints for
a numeric cell are not. -/
def numToStr (q : ℚ) : String := if q.den = 1 then toString q.num else toString q

/-- `astype(str)` on one cell: pandas renders `NaN` as the string `"nan"`. -/
def astypeStr (v : Value) : Value :=
  match v with
  | .str s => .str s
  | .num q => .str (numToStr q)
  | .na => .str "nan"

/-- `fillna` with a string default. -/
def fillnaStr (d : String) (v : Value) : Value :=
  match v with
  | .na => .str d
  | v => v

/-- `fillna` with a numeric default. -/
def fillnaNum (d : ℚ) (v : Value) : Value :=
  match v with
  | .na => .num d
  | v => v

/-- `.str.lower().str.strip()` on one cell; the `.str` accessor yields `NaN`
on a non-string cell. -/
def strLowerStrip (v : Value) : Value :=
  match v with
  | .str s => .str (lowerStrip s)
  | _ => .na

/-- `.str.strip()` on one cell. -/
def strStrip (v : Value) : Value :=
  match v with
  | .str s => .str (pyStrip s)
  | _ => .na

/-- `Series.map(dict)` on one cell: anything that is not a key of the dict
(including every non-string cell — the tables have only string keys) maps to
`NaN`. -/
def mapDict (m : List (String × String)) (v : Value) : Value :=
  match v with
  | .str s =>
    match m.lookup s with
    | some t => .str t
    | none => .na
  | _ => .na

/-- Digit-string value, `none` when empty or not all digits. -/
def digitsVal (l : List Char) : Option ℕ :=
  if l ≠ [] ∧ l.all Char.isDigit then
    some (l.foldl (fun n c => n * 10 + (c.toNat - 48)) 0)
  else none

/-- Unsigned decimal parser: digits with an optional fractional part. -/
def parseUnsigned (l : List Char) : Option ℚ :=
  match l.span (fun c => c ≠ '.') with
  | (ip, []) => (digitsVal ip).map (fun n => (n : ℚ))
  | (ip, _ :: fp) =>
    if ip = [] ∧ fp = [] then none
    else if ip.all Char.isDigit ∧ fp.all Char.isDigit then
      some (((digitsVal ip).getD 0 : ℚ) + ((digitsVal fp).getD 0 : ℚ) / (10 ^ fp.length))
    else none

/-- Decimal parser standing in for `pd.to_numeric`'s string parsing (optional
sign and fraction, surrounding whitespace).  Only its behaviour on cells that
are *already numeric* — where `to_numeric` is the identity — is relied upon
by the stated properties. -/
def parseNumeric (s : String) : Option ℚ :=
  match pyStripList s.data with
  | '-' :: rest => (parseUnsigned rest).map (fun q => -q)
  | '+' :: rest => parseUnsigned rest
  | l => parseUnsigned l

/-- `pd.to_numeric(col, errors='coerce')` on one cell. -/
def toNumericCoerce (v : Value) : Value :=
  match v with
  | .num q => .num q
  | .str s =>
    match parseNumeric s with
    | some q => .num q
    | none => .na
  | .na => .na

/-- Transform the (single) column labelled `label` cell-wise.  The series
operations used on these columns (`.str...`, `pd.to_numeric`) raise when the
label is duplicated (the selection is then 2-D), aborting
`normalize_columns`; that failure is modeled as `none`.  A label count of
zero cannot occur, the transforms running after the fill step. -/
def applyCol (label : String) (f : Value → Value) (df : DataFrame) :
    Option DataFrame :=
  if df.cols.count label = 1 then
    some { df with rows := df.rows.map (fun row =>
      (df.cols.zip row).map (fun p => if p.1 = label then f p.2 else p.2)) }
  else none

/-- The `Run` pipeline: `fillna(1)`, `to_numeric(errors='coerce')`,
`fillna(1)`. -/
def runTransform (v : Value) : Value :=
  fillnaNum 1 (toNumericCoerce (fillnaNum 1 v))

/-- The `Result` pipeline: `fillna('Not Executed')`, `astype(str)`,
`.str.lower().str.strip()`, `map(RESULT_MAPPINGS)`, `fillna('Not Executed')`. -/
def resultTransform (v : Value) : Value :=
  fillnaStr "Not Executed"
    (mapDict RESULT_MAPPINGS (strLowerStrip (astypeStr (fillnaStr "Not Executed" v))))

/-- The `Severity` pipeline: `astype(str)`, `.str.lower().str.strip()`,
`map(SEVERITY_MAPPINGS)`, `fillna('')`. -/
def severityTransform (v : Value) : Value :=
  fillnaStr "" (mapDict SEVERITY_MAPPINGS (strLowerStrip (astypeStr v)))

/-- The `Priority` pipeline, analogous to `Severity`. -/
def priorityTransform (v : Value) : Value :=
  fillnaStr "" (mapDict PRIORITY_MAPPINGS (strLowerStrip (astypeStr v)))

/-- The plain string-column cleanup: `astype(str).str.strip()`. -/
def stripTransform (v : Value) : Value := strStrip (astypeStr v)

/-- `normalize_columns`: rename known aliases case-insensitively, synthesize
missing canonical columns with empty-string cells, then standardize `Run`,
`Result`, `Severity`, `Priority` and strip the five plain string columns, in
the source's order.  (The `if col in df_clean.columns` guards are always true
after the fill step.) -/
def normalize_columns (df : DataFrame) : Option DataFrame :=
  (applyCol "Run" runTransform (addMissing (renameStep df))).bind
    (fun d => (applyCol "Result" resultTransform d).bind
      (fun d => (applyCol "Severity" severityTransform d).bind
        (fun d => (applyCol "Priority" priorityTransform d).bind
          (fun d => (applyCol "TestCaseID" stripTransform d).bind
            (fun d => (applyCol "Description" stripTransform d).bind
              (fun d => (applyCol "Module" stripTransform d).bind
                (fun d => (applyCol "Tester" stripTransform d).bind
                  (fun d => applyCol "BugID" stripTransform d))))))))

/-- Cell invariant of the `Run` column after normalization: numeric. -/
def InvRun (c : String) (v : Value) : Prop := c = "Run" → ∃ q, v = .num q

/-- Cell invariant of the `Result` column: one of the five result values. -/
def InvResult (c : String) (v : Value) : Prop :=
  c = "Result" → ∃ s, v = .str s ∧
    s ∈ ["Pass", "Fail", "Blocked", "Skipped", "Not Executed"]

/-- Cell invariant of the `Severity` column: a severity value or empty. -/
def InvSeverity (c : String) (v : Value) : Prop :=
  c = "Severity" → ∃ s, v = .str s ∧ s ∈ ["Critical", "Major", "Medium", "Minor", ""]

/-- Cell invariant of the `Priority` column: a priority value or empty. -/
def InvPriority (c : String) (v : Value) : Prop :=
  c = "Priority" → ∃ s, v = .str s ∧ s ∈ ["Highest", "High", "Medium", "Low", ""]

/-- Cell invariant of a stripped plain string column. -/
def InvStr (label c : String) (v : Value) : Prop :=
  c = label → ∃ s, v = .str s ∧ pyStrip s = s

/-- The per-column invariant satisfied by every cell of a normalized
DataFrame (by column label). -/
def CellInv (c : String) (v : Value) : Prop :=
  InvRun c v ∧ InvResult c v ∧ InvSeverity c v ∧ InvPriority c v ∧
  InvStr "TestCaseID" c v ∧ InvStr "Description" c v ∧ InvStr "Module" c v ∧
  InvStr "Tester" c v ∧ InvStr "BugID" c v

/-- The shape of a normalized DataFrame's columns: renaming fixes every
label, all canonical columns are present, and each processed label occurs
exactly once. -/
def ColsGood (cols : List String) : Prop :=
  (∀ c ∈ cols, renameCol c = c) ∧
  (∀ c ∈ canonicalOrder, c ∈ cols) ∧
  (cols.count "Run" = 1 ∧ cols.count "Result" = 1 ∧ cols.count "Severity" = 1 ∧
   cols.count "Priority" = 1 ∧ cols.count "TestCaseID" = 1 ∧
   cols.count "Description" = 1 ∧ cols.count "Module" = 1 ∧
   cols.count "Tester" = 1 ∧ cols.count "BugID" = 1)

/-- A DataFrame on which `normalize_columns` is the identity: good columns,
aligned rows, every cell satisfying its column's invariant. -/
def Good (df : DataFrame) : Prop :=
  ColsGood df.cols ∧
  ∀ row ∈ df.rows, row.length = df.cols.length ∧
    ∀ p ∈ df.cols.zip row, CellInv p.1 p.2

/-! ## Quality gates (`quality_gates.py`) -/

/-- One threshold tier of a quality-gate profile (`approved` or
`conditional`).  A `none` field models a key absent from the configuration;
`release_thresholds.get("approved", {})` makes a wholly missing tier behave as
the all-`none` tier, which is the default value here. -/
structure Tier where
  min_pass_rate : Option ℚ := none
  max_critical_defects : Option ℤ := none
  max_major_defects : Option ℤ := none
deriving DecidableEq, Repr

/-- The `release_thresholds` of one quality-gate profile. -/
structure ReleaseThresholds where
  approved : Tier := {}
  conditional : Tier := {}
deriving DecidableEq, Repr

inductive Recommendation where
  | APPROVED
  | CONDITIONAL
  | REJECTED
deriving DecidableEq, Repr

/-- The three-way AND of one tier check, with the code's `.get(key, default)`
defaults: a missing `min_pass_rate` is 0 and missing max-defect thresholds
are the sentinel 999. -/
def tierOk (t : Tier) (pass_rate : ℚ) (critical_defects major_defects : ℤ) : Bool :=
  pass_rate ≥ t.min_pass_rate.getD 0 &&
  critical_defects ≤ t.max_critical_defects.getD 999 &&
  major_defects ≤ t.max_major_defects.getD 999

/-- The recommendation computed by
`QualityGateEvaluator.evaluate_release_recommendation` (quality_gates.py
lines 49-79) for a resolved profile: approved tier first, then conditional,
else rejected.  (Profile-name fallback and the textual justification carry no
stated property and are elided.) -/
def evaluate_release_recommendation (g : ReleaseThresholds) (pass_rate : ℚ)
    (critical_defects major_defects : ℤ) : Recommendation :=
  if tierOk g.approved pass_rate critical_defects major_defects then .APPROVED
  else if tierOk g.conditional pass_rate critical_defects major_defects then .CONDITIONAL
  else .REJECTED

/-- Modelled from the spec's words for comparison ("missing max-defect
thresholds default to a very large sentinel (effectively unconstrained)"):
a tier check in which an absent threshold imposes *no* constraint at all. -/
def tierOkUnconstrained (t : Tier) (pass_rate : ℚ)
    (critical_defects major_defects : ℤ) : Bool :=
  (match t.min_pass_rate with
    | none => true
    | some m => pass_rate ≥ m) &&
  (match t.max_critical_defects with
    | none => true
    | some m => critical_defects ≤ m) &&
  (match t.max_major_defects with
    | none => true
    | some m => major_defects ≤ m)

/-- The evaluator with truly unconstrained treatment of absent thresholds:
the comparison baseline the claim appeals to. -/
def evaluateUnconstrained (g : ReleaseThresholds) (pass_rate : ℚ)
    (critical_defects major_defects : ℤ) : Recommendation :=
  if tierOkUnconstrained g.approved pass_rate critical_defects major_defects then .APPROVED
  else if tierOkUnconstrained g.conditional pass_rate critical_defects major_defects then
    .CONDITIONAL
  else .REJECTED

/-- Reference formulation (from the spec's words) of the key-bug list:
de-duplicate by `BugID`, first occurrence winning, each survivor annotated by
`mkBugInfo`.  Proved below to coincide with the accumulator loop `keyBugs`. -/
def dedupByIdFirst : List Row → List BugInfo
  | [] => []
  | r :: rs => mkBugInfo r :: dedupByIdFirst (rs.filter (fun r2 => r2.bugID ≠ r.bugID))
termination_by l => l.length
decreasing_by
  simp only [List.length_cons]
  exact Nat.lt_succ_of_le (List.length_filter_le _ _)

/-! ## Lemmas and claim theorems -/

/-- Projections of `deriveSeverity`: only the severity cell is overwritten. -/
theorem deriveSeverity_testCaseID (r : Row) : (deriveSeverity r).testCaseID = r.testCaseID := rfl

theorem deriveSeverity_result (r : Row) : (deriveSeverity r).result = r.result := rfl

theorem deriveSeverity_bugID (r : Row) : (deriveSeverity r).bugID = r.bugID := rfl

theorem deriveSeverity_module (r : Row) : (deriveSeverity r).module = r.module := rfl

/-! ## Basic lemmas about the dictionary / unique helpers -/

theorem mem_uniqueAux (l : List String) :
    ∀ (seen : List String) (a : String),
      a ∈ uniqueAux seen l ↔ a ∈ l ∧ a ∉ seen := by
  induction l with
  | nil => intro seen a; simp [uniqueAux]
  | cons x xs ih =>
    intro seen a
    rw [uniqueAux]
    by_cases hx : x ∈ seen
    · rw [if_pos hx, ih]
      constructor
      · rintro ⟨h1, h2⟩; exact ⟨List.mem_cons_of_mem x h1, h2⟩
      · rintro ⟨h1, h2⟩
        rcases List.mem_cons.mp h1 with rfl | h1
        · exact absurd hx h2
        · exact ⟨h1, h2⟩
    · rw [if_neg hx]
      by_cases hax : a = x
      · subst hax; simp [hx]
      · simp only [List.mem_cons, hax, false_or]
        rw [ih]
        constructor
        · rintro ⟨h1, h2⟩
          exact ⟨h1, fun hs => h2 (List.mem_cons_of_mem x hs)⟩
        · rintro ⟨h1, h2⟩
          refine ⟨h1, fun hs => ?_⟩
          rcases List.mem_cons.mp hs with rfl | hs
          · exact hax rfl
          · exact h2 hs

theorem mem_uniqueList (l : List String) (a : String) : a ∈ uniqueList l ↔ a ∈ l := by
  rw [uniqueList, mem_uniqueAux]
  simp

theorem lookup_map_pair (u : List String) (g : String → Nat) (c : String) :
    (u.map (fun v => (v, g v))).lookup c = if c ∈ u then some (g c) else none := by
  induction u with
  | nil => simp
  | cons v vs ih =>
    simp only [List.map_cons, List.lookup, List.mem_cons]
    by_cases hcv : c = v
    · subst hcv; simp
    · have : (c == v) = false := by simp [hcv]
      rw [this]
      simp only [ih, hcv, false_or]

theorem lookup_valueCounts (l : List String) (c : String) :
    (valueCounts l).lookup c = if c ∈ l then some (l.count c) else none := by
  rw [valueCounts, lookup_map_pair]
  by_cases h : c ∈ l
  · rw [if_pos ((mem_uniqueList l c).mpr h), if_pos h]
  · rw [if_neg (fun hc => h ((mem_uniqueList l c).mp hc)), if_neg h]

theorem lookup_append (l1 l2 : List (String × Nat)) (c : String) :
    (l1 ++ l2).lookup c = ((l1.lookup c).or (l2.lookup c)) := by
  induction l1 with
  | nil => simp
  | cons p l1 ih =>
    obtain ⟨k, v⟩ := p
    by_cases hck : c = k
    · subst hck; simp [List.lookup]
    · have : (c == k) = false := by simp [hck]
      simp [List.lookup, this, ih]

/-- `ensureCategories` never disturbs a key that is already bound. -/
theorem lookup_ensureCategories_of_isSome (cats : List String)
    (m : List (String × Nat)) (c : String) (h : (m.lookup c).isSome) :
    (ensureCategories cats m).lookup c = m.lookup c := by
  induction cats generalizing m with
  | nil => simp [ensureCategories]
  | cons d cats ih =>
    rw [ensureCategories, List.foldl_cons]
    by_cases hd : (m.lookup d).isSome
    · rw [if_pos hd]; exact ih m h
    · rw [if_neg hd]
      have h' : ((m ++ [(d, 0)]).lookup c).isSome := by
        rw [lookup_append]
        obtain ⟨v, hv⟩ := Option.isSome_iff_exists.mp h
        simp [hv]
      have hfold : (List.foldl (fun acc c =>
          if (acc.lookup c).isSome then acc else acc ++ [(c, 0)]) (m ++ [(d, 0)]) cats)
            = ensureCategories cats (m ++ [(d, 0)]) := rfl
      rw [hfold, ih _ h', lookup_append]
      obtain ⟨v, hv⟩ := Option.isSome_iff_exists.mp h
      simp [hv]

/-- `ensureCategories` for a requested category: an already-present count is
kept, a missing one is bound to 0. -/
theorem lookup_ensureCategories (cats : List String) (hnd : cats.Nodup)
    (m : List (String × Nat)) (c : String) (hc : c ∈ cats) :
    (ensureCategories cats m).lookup c = some ((m.lookup c).getD 0) := by
  induction cats generalizing m with
  | nil => cases hc
  | cons d cats ih =>
    rw [ensureCategories, List.foldl_cons]
    rcases List.mem_cons.mp hc with hcd | hcc
    · subst hcd
      by_cases hd : (m.lookup c).isSome
      · rw [if_pos hd]
        obtain ⟨v, hv⟩ := Option.isSome_iff_exists.mp hd
        have : ((ensureCategories cats m)).lookup c = m.lookup c :=
          lookup_ensureCategories_of_isSome cats m c hd
        rw [show (List.foldl (fun acc c =>
            if (acc.lookup c).isSome then acc else acc ++ [(c, 0)]) m cats)
              = ensureCategories cats m from rfl, this, hv]
        rfl
      · rw [if_neg hd]
        have h' : ((m ++ [(c, 0)]).lookup c).isSome := by
          rw [lookup_append]
          rw [Option.not_isSome_iff_eq_none] at hd
          simp [hd, List.lookup]
        have heq : ((m ++ [(c, 0)]).lookup c) = some 0 := by
          rw [lookup_append]
          rw [Option.not_isSome_iff_eq_none] at hd
          simp [hd, List.lookup]
        have : (List.foldl (fun acc c =>
            if (acc.lookup c).isSome then acc else acc ++ [(c, 0)]) (m ++ [(c, 0)]) cats)
              = ensureCategories cats (m ++ [(c, 0)]) := rfl
        rw [this, lookup_ensureCategories_of_isSome cats _ c h', heq,
          Option.not_isSome_iff_eq_none.mp hd]
        rfl
    · have hdc : d ∉ cats := (List.nodup_cons.mp hnd).1
      have hnd' : cats.Nodup := (List.nodup_cons.mp hnd).2
      have hne : c ≠ d := fun h => hdc (h ▸ hcc)
      by_cases hd : (m.lookup d).isSome
      · rw [if_pos hd]; exact ih hnd' m hcc
      · rw [if_neg hd]
        have : (List.foldl (fun acc c =>
            if (acc.lookup c).isSome then acc else acc ++ [(c, 0)]) (m ++ [(d, 0)]) cats)
              = ensureCategories cats (m ++ [(d, 0)]) := rfl
        rw [this, ih hnd' _ hcc, lookup_append]
        have hbe : (c == d) = false := by simp [hne]
        have : ([((d : String), (0 : Nat))].lookup c) = none := by
          simp [List.lookup, hbe]
        rw [this, Option.or_none]

theorem count_map_filter (rows : List Row) (p : Row → Bool) (f : Row → String)
    (c : String) :
    ((rows.filter p).map f).count c =
      (rows.filter (fun r => p r && f r = c)).length := by
  rw [List.count_eq_countP, List.countP_map, List.countP_filter,
    List.countP_eq_length_filter]
  apply congrArg
  apply List.filter_congr
  intro r _
  by_cases h : f r = c <;> simp [h, Bool.and_comm]

theorem lookup_defectSeverityCounts (rows : List Row) (c : String)
    (hc : c ∈ (["Critical", "Major", "Medium", "Minor"] : List String)) :
    (defectSeverityCounts rows).lookup c =
      some ((rows.filter (fun r => r.bugID ≠ "" && r.severity = c)).length) := by
  have hcne : c ≠ "" := by fin_cases hc <;> decide
  rw [defectSeverityCounts, lookup_ensureCategories _ (by decide) _ _ hc,
    lookup_valueCounts]
  have hcount : ((rows.filter (fun r => r.severity ≠ "" && r.bugID ≠ "")).map
      (·.severity)).count c =
      (rows.filter (fun r => r.bugID ≠ "" && r.severity = c)).length := by
    rw [count_map_filter]
    apply congrArg
    apply List.filter_congr
    intro r _
    by_cases hs : r.severity = c
    · subst hs; by_cases hb : r.bugID = "" <;> simp [hb, hcne]
    · simp [hs]
  by_cases hmem : c ∈ (rows.filter
      (fun r => r.severity ≠ "" && r.bugID ≠ "")).map (·.severity)
  · rw [if_pos hmem, Option.getD_some, hcount]
  · rw [if_neg hmem, Option.getD_none]
    have : (rows.filter (fun r => r.bugID ≠ "" && r.severity = c)).length = 0 := by
      rw [← hcount]
      exact List.count_eq_zero.mpr hmem
    rw [this]

theorem lookup_defectPriorityCounts (rows : List Row) (c : String)
    (hc : c ∈ (["Highest", "High", "Medium", "Low"] : List String)) :
    (defectPriorityCounts rows).lookup c =
      some ((rows.filter (fun r => r.bugID ≠ "" && r.priority = c)).length) := by
  have hcne : c ≠ "" := by fin_cases hc <;> decide
  rw [defectPriorityCounts, lookup_ensureCategories _ (by decide) _ _ hc,
    lookup_valueCounts]
  have hcount : ((rows.filter (fun r => r.priority ≠ "" && r.bugID ≠ "")).map
      (·.priority)).count c =
      (rows.filter (fun r => r.bugID ≠ "" && r.priority = c)).length := by
    rw [count_map_filter]
    apply congrArg
    apply List.filter_congr
    intro r _
    by_cases hs : r.priority = c
    · subst hs; by_cases hb : r.bugID = "" <;> simp [hb, hcne]
    · simp [hs]
  by_cases hmem : c ∈ (rows.filter
      (fun r => r.priority ≠ "" && r.bugID ≠ "")).map (·.priority)
  · rw [if_pos hmem, Option.getD_some, hcount]
  · rw [if_neg hmem, Option.getD_none]
    have : (rows.filter (fun r => r.bugID ≠ "" && r.priority = c)).length = 0 := by
      rw [← hcount]
      exact List.count_eq_zero.mpr hmem
    rw [this]

theorem countP_or_disjoint (l : List Row) (p q : Row → Bool)
    (h : ∀ a ∈ l, ¬(p a = true ∧ q a = true)) :
    l.countP (fun a => p a || q a) = l.countP p + l.countP q := by
  induction l with
  | nil => simp
  | cons a l ih =>
    have ha := h a (List.mem_cons_self a l)
    have ih' := ih (fun b hb => h b (List.mem_cons_of_mem a hb))
    rw [List.countP_cons, List.countP_cons, List.countP_cons, ih']
    cases hp : p a <;> cases hq : q a <;> simp_all <;> omega

theorem computeSummary_executed (rows : List Row) :
    (computeSummary rows).executed = rows.countP
      (fun r => r.result = "Pass" || r.result = "Fail" || r.result = "Blocked") := rfl

theorem computeSummary_passed (rows : List Row) :
    (computeSummary rows).passed = rows.countP (fun r => r.result = "Pass") := rfl

theorem computeSummary_failed (rows : List Row) :
    (computeSummary rows).failed = rows.countP (fun r => r.result = "Fail") := rfl

theorem computeSummary_blocked (rows : List Row) :
    (computeSummary rows).blocked = rows.countP (fun r => r.result = "Blocked") := rfl

theorem computeSummary_skipped (rows : List Row) :
    (computeSummary rows).skipped = rows.countP (fun r => r.result = "Skipped") := rfl

theorem computeSummary_total (rows : List Row) :
    (computeSummary rows).total = rows.length := rfl

theorem computeSummary_pass_pct (rows : List Row) :
    (computeSummary rows).pass_pct =
      round2 (if (computeSummary rows).executed > 0 then
        ((computeSummary rows).passed : ℚ) / ((computeSummary rows).executed : ℚ) * 100
      else 0) := rfl

theorem round2_zero : round2 0 = 0 := by
  have h1 : roundHalfEven 0 = 0 := by norm_num [roundHalfEven]
  have : (0 : ℚ) * 100 = 0 := by norm_num
  rw [round2, this, h1]
  norm_num

theorem metrics_summary_of_ne_nil (rows : List Row) (h : rows ≠ []) :
    (computeMetrics rows).1.summary = computeSummary rows := by
  rw [computeMetrics, if_neg (by simp [h])]

/-- **C6.** For every canonical record set, `summary.pass_pct` produced by
`compute_metrics` equals `passed/executed*100` rounded to 2 decimals when
`executed > 0`, and equals exactly `0.0` whenever `executed == 0`, regardless
of the total row count (including the empty-input early return). -/
theorem C6_pass_pct (rows : List Row) :
    ((computeMetrics rows).1.summary.executed = 0 →
      (computeMetrics rows).1.summary.pass_pct = 0) ∧
    ((computeMetrics rows).1.summary.executed > 0 →
      (computeMetrics rows).1.summary.pass_pct =
        round2 (((computeMetrics rows).1.summary.passed : ℚ) /
          ((computeMetrics rows).1.summary.executed : ℚ) * 100)) := by
  by_cases h : rows = []
  · subst h
    constructor
    · intro _; rfl
    · intro hlt; exact absurd hlt (by decide)
  · rw [metrics_summary_of_ne_nil rows h]
    constructor
    · intro h0
      rw [computeSummary_pass_pct, h0]
      simp only [gt_iff_lt, lt_irrefl, if_false]
      exact round2_zero
    · intro hpos
      rw [computeSummary_pass_pct, if_pos hpos]

/-- Witness for C6 at a concrete record set with one executed test. -/
theorem C6_witness :
    (computeMetrics [({ result := "Pass" } : Row)]).1.summary.executed > 0 ∧
    (computeMetrics [({ result := "Pass" } : Row)]).1.summary.pass_pct =
      round2 (((computeMetrics [({ result := "Pass" } : Row)]).1.summary.passed : ℚ) /
        ((computeMetrics [({ result := "Pass" } : Row)]).1.summary.executed : ℚ) * 100) :=
  ⟨by decide, (C6_pass_pct [{ result := "Pass" }]).2 (by decide)⟩

/-- **C7.** The defect histograms of `compute_metrics` count exactly the rows
whose `BugID` and respective field (the row's `Severity` as it stands at the
end of the call, resp. `Priority`) are both non-empty, and each histogram
binds all four fixed categories explicitly (possibly to 0), for every input
including zero-defect and zero-row record sets. -/
theorem C7_defect_histograms (rows : List Row) :
    (∀ c ∈ (["Critical", "Major", "Medium", "Minor"] : List String),
      ((computeMetrics rows).1.defects_by_severity).lookup c =
        some (((computeMetrics rows).2.filter
          (fun r => r.bugID ≠ "" && r.severity = c)).length)) ∧
    (∀ p ∈ (["Highest", "High", "Medium", "Low"] : List String),
      ((computeMetrics rows).1.defects_by_priority).lookup p =
        some ((rows.filter
          (fun r => r.bugID ≠ "" && r.priority = p)).length)) := by
  by_cases h : rows = []
  · subst h
    constructor
    · intro c hc; fin_cases hc <;> rfl
    · intro p hp; fin_cases hp <;> rfl
  · have hne : ¬(List.isEmpty rows = true) := by simp [h]
    constructor
    · intro c hc
      rw [computeMetrics]
      simp only [if_neg hne]
      by_cases hfb : severityFallbackCond rows = true
      · simp only [if_pos hfb]
        exact lookup_defectSeverityCounts _ c hc
      · simp only [if_neg hfb]
        exact lookup_defectSeverityCounts _ c hc
    · intro p hp
      rw [computeMetrics]
      simp only [if_neg hne]
      exact lookup_defectPriorityCounts _ p hp

/-- Witness for C7 on a record set with one Critical defect row. -/
theorem C7_witness :
    ((computeMetrics [({ bugID := "B1", severity := "Critical", module := "M" } : Row)]).1.defects_by_severity).lookup "Critical" =
      some (((computeMetrics [({ bugID := "B1", severity := "Critical", module := "M" } : Row)]).2.filter
        (fun r => r.bugID ≠ "" && r.severity = "Critical")).length) :=
  (C7_defect_histograms [{ bugID := "B1", severity := "Critical", module := "M" }]).1
    "Critical" (by simp)

/-- **C8.** For every non-empty canonical record set whose results are drawn
from the canonical result enum, the summary satisfies
`passed + failed + blocked = executed` and `executed + skipped ≤ total`. -/
theorem C8_summary_invariants (rows : List Row) (h1 : rows ≠ [])
    (h2 : ∀ r ∈ rows, r.result ∈
      (["Pass", "Fail", "Blocked", "Skipped", "Not Executed"] : List String)) :
    (computeMetrics rows).1.summary.passed + (computeMetrics rows).1.summary.failed +
        (computeMetrics rows).1.summary.blocked =
      (computeMetrics rows).1.summary.executed ∧
    (computeMetrics rows).1.summary.executed + (computeMetrics rows).1.summary.skipped ≤
      (computeMetrics rows).1.summary.total := by
  rw [metrics_summary_of_ne_nil rows h1]
  have hPFB : rows.countP
      (fun r => r.result = "Pass" || r.result = "Fail" || r.result = "Blocked") =
      rows.countP (fun r => r.result = "Pass") +
        rows.countP (fun r => r.result = "Fail") +
        rows.countP (fun r => r.result = "Blocked") := by
    rw [countP_or_disjoint rows
      (fun r => r.result = "Pass" || r.result = "Fail")
      (fun r => r.result = "Blocked") (by
        intro a _
        rintro ⟨hp, hq⟩
        rw [decide_eq_true_iff] at hq
        simp [hq] at hp)]
    rw [countP_or_disjoint rows _ _ (by
      intro a _
      rintro ⟨hp, hq⟩
      rw [decide_eq_true_iff] at hp
      simp [hp] at hq)]
  constructor
  · rw [computeSummary_passed, computeSummary_failed, computeSummary_blocked,
      computeSummary_executed, hPFB]
  · rw [computeSummary_executed, computeSummary_skipped, computeSummary_total]
    have hdisj : rows.countP
        (fun r => (r.result = "Pass" || r.result = "Fail" || r.result = "Blocked") ||
          r.result = "Skipped") =
        rows.countP
          (fun r => r.result = "Pass" || r.result = "Fail" || r.result = "Blocked") +
        rows.countP (fun r => r.result = "Skipped") := by
      apply countP_or_disjoint
      intro a _
      rintro ⟨hp, hq⟩
      rw [decide_eq_true_iff] at hq
      simp [hq] at hp
    rw [← hdisj]
    exact List.countP_le_length _

/-- Witness for C8 on a two-row record set. -/
theorem C8_witness :
    (computeMetrics [({ result := "Pass" } : Row), ({ result := "Skipped" } : Row)]).1.summary.passed +
        (computeMetrics [({ result := "Pass" } : Row), ({ result := "Skipped" } : Row)]).1.summary.failed +
        (computeMetrics [({ result := "Pass" } : Row), ({ result := "Skipped" } : Row)]).1.summary.blocked =
      (computeMetrics [({ result := "Pass" } : Row), ({ result := "Skipped" } : Row)]).1.summary.executed ∧
    (computeMetrics [({ result := "Pass" } : Row), ({ result := "Skipped" } : Row)]).1.summary.executed +
        (computeMetrics [({ result := "Pass" } : Row), ({ result := "Skipped" } : Row)]).1.summary.skipped ≤
      (computeMetrics [({ result := "Pass" } : Row), ({ result := "Skipped" } : Row)]).1.summary.total :=
  C8_summary_invariants [{ result := "Pass" }, { result := "Skipped" }]
    (by decide) (by decide)

theorem resultsOf_cons (r : Row) (rs : List Row) (tid : String) :
    resultsOf (r :: rs) tid =
      if r.testCaseID = tid then r.result :: resultsOf rs tid
      else resultsOf rs tid := by
  rw [resultsOf, List.filter_cons]
  by_cases h : r.testCaseID = tid
  · rw [if_pos (by simp [h]), if_pos h, List.map_cons]; rfl
  · rw [if_neg (by simp [h]), if_neg h]; rfl

theorem resultsOf_map_deriveSeverity (rows : List Row) (tid : String) :
    resultsOf (rows.map deriveSeverity) tid = resultsOf rows tid := by
  induction rows with
  | nil => rfl
  | cons r rs ih =>
    rw [List.map_cons, resultsOf_cons, resultsOf_cons, deriveSeverity_testCaseID,
      deriveSeverity_result, ih]

theorem resultsOf_append_single (rows : List Row) (r : Row) (tid : String) :
    resultsOf (rows ++ [r]) tid =
      resultsOf rows tid ++ (if r.testCaseID = tid then [r.result] else []) := by
  rw [resultsOf, List.filter_append, List.map_append, List.filter_cons]
  by_cases h : r.testCaseID = tid
  · rw [if_pos (by simp [h]), if_pos h]; rfl
  · rw [if_neg (by simp [h]), if_neg h]; rfl

theorem mem_flakyTests (rows : List Row) (tid : String) :
    tid ∈ flakyTests rows ↔
      tid ≠ "" ∧ "Pass" ∈ resultsOf rows tid ∧ "Fail" ∈ resultsOf rows tid := by
  rw [flakyTests, List.mem_filter]
  constructor
  · rintro ⟨_, hpred⟩
    simp only [Bool.and_eq_true, decide_eq_true_eq] at hpred
    exact ⟨hpred.1.1, hpred.1.2, hpred.2⟩
  · rintro ⟨h1, h2, h3⟩
    refine ⟨?_, ?_⟩
    · rw [mem_uniqueList]
      obtain ⟨r, hr, _⟩ := List.mem_map.mp h2
      obtain ⟨hrmem, hrtid⟩ := List.mem_filter.mp hr
      rw [decide_eq_true_eq] at hrtid
      exact List.mem_map.mpr ⟨r, hrmem, hrtid⟩
    · simp only [Bool.and_eq_true, decide_eq_true_eq]
      exact ⟨⟨h1, h2⟩, h3⟩

theorem metrics_flaky (rows : List Row) :
    (computeMetrics rows).1.flaky = flakyTests ((computeMetrics rows).2) := by
  by_cases h : List.isEmpty rows = true
  · rw [List.isEmpty_iff] at h
    subst h; rfl
  · rw [computeMetrics, if_neg h]

theorem resultsOf_metrics_snd (rows : List Row) (tid : String) :
    resultsOf ((computeMetrics rows).2) tid = resultsOf rows tid := by
  by_cases h : List.isEmpty rows = true
  · rw [computeMetrics, if_pos h]
  · rw [computeMetrics, if_neg h]
    by_cases hfb : severityFallbackCond rows = true
    · simp only [if_pos hfb]
      exact resultsOf_map_deriveSeverity rows tid
    · simp only [if_neg hfb]

/-- **C5.** A `TestCaseID` is in the flaky list of `compute_metrics` iff the
results observed across its rows include both `Pass` and `Fail`; adding a row
with result `Blocked` or `Skipped` for that id never changes its membership
(removing such a row is the same equivalence read right-to-left).  A blank
`TestCaseID` means "no value" per the canonical data model and is skipped by
the scan, so the claim is about actual (non-empty) identifiers. -/
theorem C5_flaky_characterization (rows : List Row) (tid : String) (h : tid ≠ "") :
    (tid ∈ (computeMetrics rows).1.flaky ↔
      "Pass" ∈ resultsOf rows tid ∧ "Fail" ∈ resultsOf rows tid) ∧
    (∀ r : Row, r.testCaseID = tid → (r.result = "Blocked" ∨ r.result = "Skipped") →
      (tid ∈ (computeMetrics (rows ++ [r])).1.flaky ↔
        tid ∈ (computeMetrics rows).1.flaky)) := by
  have key : ∀ rs : List Row, tid ∈ (computeMetrics rs).1.flaky ↔
      ("Pass" ∈ resultsOf rs tid ∧ "Fail" ∈ resultsOf rs tid) := by
    intro rs
    rw [metrics_flaky, mem_flakyTests, resultsOf_metrics_snd]
    exact ⟨fun ⟨_, a, b⟩ => ⟨a, b⟩, fun ⟨a, b⟩ => ⟨h, a, b⟩⟩
  refine ⟨key rows, ?_⟩
  intro r hrt hbs
  rw [key, key, resultsOf_append_single, if_pos hrt]
  have hp : "Pass" ≠ r.result := by
    rcases hbs with h' | h' <;> rw [h'] <;> decide
  have hf : "Fail" ≠ r.result := by
    rcases hbs with h' | h' <;> rw [h'] <;> decide
  simp [List.mem_append, hp, hf]

/-- Witness for C5 at a concrete flaky test case. -/
theorem C5_witness :
    ("TC1" ∈ (computeMetrics
        [({ testCaseID := "TC1", result := "Pass" } : Row),
         ({ testCaseID := "TC1", result := "Fail" } : Row)]).1.flaky ↔
      "Pass" ∈ resultsOf
        [({ testCaseID := "TC1", result := "Pass" } : Row),
         ({ testCaseID := "TC1", result := "Fail" } : Row)] "TC1" ∧
      "Fail" ∈ resultsOf
        [({ testCaseID := "TC1", result := "Pass" } : Row),
         ({ testCaseID := "TC1", result := "Fail" } : Row)] "TC1") :=
  (C5_flaky_characterization
    [{ testCaseID := "TC1", result := "Pass" },
     { testCaseID := "TC1", result := "Fail" }] "TC1" (by decide)).1

/-! ## Severity-fallback claims (C1, C3) -/

theorem severityFallbackCond_true (rows : List Row)
    (h1 : ∀ r ∈ rows, r.severity = "") (h2 : ∃ r ∈ rows, r.priority ≠ "") :
    severityFallbackCond rows = true := by
  rw [severityFallbackCond, Bool.and_eq_true, List.all_eq_true, List.any_eq_true]
  constructor
  · intro r hr; rw [decide_eq_true_eq]; exact h1 r hr
  · obtain ⟨r, hr, hp⟩ := h2
    exact ⟨r, hr, by rw [decide_eq_true_eq]; exact hp⟩

theorem metrics_snd_of_fallback (rows : List Row)
    (h1 : ∀ r ∈ rows, r.severity = "") (h2 : ∃ r ∈ rows, r.priority ≠ "") :
    (computeMetrics rows).2 = rows.map deriveSeverity := by
  have hne : rows ≠ [] := by
    obtain ⟨r, hr, _⟩ := h2
    exact List.ne_nil_of_mem hr
  rw [computeMetrics, if_neg (by simp [hne])]
  simp only [if_pos (severityFallbackCond_true rows h1 h2)]

/-- **C3.** Under the fallback condition (no row has a non-empty `Severity`,
some row has a non-empty `Priority`), `compute_metrics` derives each row's
severity through the fixed `{Highest→Critical, High→Major, Medium→Medium,
Low→Minor}` mapping (`deriveSeverity`) and recomputes `defects_by_severity`
from the derived values; in particular the all-empty-severity dataset with
two defect rows of priorities `Highest` and `High` yields
`{Critical:1, Major:1, Medium:0, Minor:0}`. -/
theorem C3_severity_fallback (rows : List Row)
    (h1 : ∀ r ∈ rows, r.severity = "") (h2 : ∃ r ∈ rows, r.priority ≠ "") :
    (computeMetrics rows).2 = rows.map deriveSeverity ∧
    (∀ c ∈ (["Critical", "Major", "Medium", "Minor"] : List String),
      ((computeMetrics rows).1.defects_by_severity).lookup c =
        some (((rows.map deriveSeverity).filter
          (fun r => r.bugID ≠ "" && r.severity = c)).length)) ∧
    (computeMetrics
        [({ bugID := "B1", priority := "Highest" } : Row),
         ({ bugID := "B2", priority := "High" } : Row)]).1.defects_by_severity =
      [("Critical", 1), ("Major", 1), ("Medium", 0), ("Minor", 0)] := by
  have hne : rows ≠ [] := by
    obtain ⟨r, hr, _⟩ := h2
    exact List.ne_nil_of_mem hr
  refine ⟨metrics_snd_of_fallback rows h1 h2, ?_, by decide⟩
  intro c hc
  rw [computeMetrics, if_neg (by simp [hne])]
  simp only [if_pos (severityFallbackCond_true rows h1 h2)]
  exact lookup_defectSeverityCounts _ c hc

/-- Witness for C3 at the two-row `Highest`/`High` dataset. -/
theorem C3_witness :
    (computeMetrics
        [({ bugID := "B1", priority := "Highest" } : Row),
         ({ bugID := "B2", priority := "High" } : Row)]).2 =
      [({ bugID := "B1", priority := "Highest" } : Row),
       ({ bugID := "B2", priority := "High" } : Row)].map deriveSeverity :=
  (C3_severity_fallback
    [{ bugID := "B1", priority := "Highest" }, { bugID := "B2", priority := "High" }]
    (by decide) (by decide)).1

/-- **C1, as stated, is false**: `compute_metrics` assigns the derived
severities into the very record set the caller passed in
(`df['Severity'] = df['Priority'].map(...)` mutates `df` in place); there is
no private working copy.  Concretely, a one-row all-empty-severity dataset
with priority `Highest` is no longer equal to itself after the call — its
severity has become `Critical`. -/
theorem C1_counterexample :
    (∀ r ∈ ([{ bugID := "B1", priority := "Highest" }] : List Row), r.severity = "") ∧
    (∃ r ∈ ([{ bugID := "B1", priority := "Highest" }] : List Row), r.priority ≠ "") ∧
    (computeMetrics [({ bugID := "B1", priority := "Highest" } : Row)]).2 ≠
      [{ bugID := "B1", priority := "Highest" }] ∧
    ¬(∀ r ∈ (computeMetrics [({ bugID := "B1", priority := "Highest" } : Row)]).2,
        r.severity = "") := by decide

theorem map_eq_self_of_eq {α : Type} (f : α → α) :
    ∀ (l : List α), l.map f = l → ∀ x ∈ l, f x = x := by
  intro l
  induction l with
  | nil => intro _ x hx; cases hx
  | cons a t ih =>
    intro h x hx
    rw [List.map_cons, List.cons.injEq] at h
    rcases List.mem_cons.mp hx with rfl | hx
    · exact h.1
    · exact ih h.2 x hx

theorem lookup_pairs_mem {β : Type} (m : List (String × β)) (k : String) (v : β)
    (h : m.lookup k = some v) : (k, v) ∈ m := by
  obtain ⟨l₁, l₂, rfl, -⟩ := List.lookup_eq_some_iff.mp h
  exact List.mem_append.mpr (Or.inr (List.mem_cons_self _ _))

/-- **C1, amended.** The derived per-row severities are *not* confined to a
working copy: under the fallback condition the record set as observed after
`compute_metrics` is exactly the priority-derived one, and it differs from
the record set passed in whenever some row's priority actually maps to a
severity. -/
theorem C1_amended_mutation (rows : List Row)
    (h1 : ∀ r ∈ rows, r.severity = "") (h2 : ∃ r ∈ rows, r.priority ≠ "") :
    (computeMetrics rows).2 = rows.map deriveSeverity ∧
    ((∃ r ∈ rows, (PRIORITY_TO_SEVERITY.lookup r.priority).isSome) →
      (computeMetrics rows).2 ≠ rows) := by
  refine ⟨metrics_snd_of_fallback rows h1 h2, ?_⟩
  rintro ⟨r, hr, hlk⟩ heq
  obtain ⟨v, hv⟩ := Option.isSome_iff_exists.mp hlk
  have hvne : v ≠ "" := by
    have hmem := lookup_pairs_mem _ _ _ hv
    have : ∀ q ∈ PRIORITY_TO_SEVERITY, q.2 ≠ "" := by decide
    exact this _ hmem
  rw [metrics_snd_of_fallback rows h1 h2] at heq
  have hfix := map_eq_self_of_eq deriveSeverity rows heq r hr
  have : (deriveSeverity r).severity = r.severity := by rw [hfix]
  rw [deriveSeverity, h1 r hr] at this
  simp only [hv, Option.getD_some] at this
  exact hvne this

/-- Witness for C1's amended statement at the one-row counterexample input. -/
theorem C1_witness :
    (computeMetrics [({ bugID := "B1", priority := "Highest" } : Row)]).2 =
      [({ bugID := "B1", priority := "Highest" } : Row)].map deriveSeverity ∧
    ((∃ r ∈ ([{ bugID := "B1", priority := "Highest" }] : List Row),
        (PRIORITY_TO_SEVERITY.lookup r.priority).isSome) →
      (computeMetrics [({ bugID := "B1", priority := "Highest" } : Row)]).2 ≠
        [{ bugID := "B1", priority := "Highest" }]) :=
  C1_amended_mutation [{ bugID := "B1", priority := "Highest" }] (by decide) (by decide)

/-! ## Key-bug claims (C4, C10) -/

theorem keyBugs_foldl_eq (l : List Row) :
    ∀ acc : List BugInfo,
      l.foldl (fun acc r =>
        if acc.any (fun b => b.id = r.bugID) then acc else acc ++ [mkBugInfo r]) acc =
      acc ++ dedupByIdFirst (l.filter (fun r => !(acc.any (fun b => b.id = r.bugID)))) := by
  induction l with
  | nil => intro acc; simp [dedupByIdFirst]
  | cons r rs ih =>
    intro acc
    rw [List.foldl_cons, List.filter_cons]
    by_cases hmem : acc.any (fun b => b.id = r.bugID) = true
    · rw [if_pos hmem]
      have hc : (!(acc.any (fun b => b.id = r.bugID))) = false := by simp [hmem]
      rw [hc, if_neg (by simp), ih acc]
    · rw [if_neg hmem]
      rw [Bool.not_eq_true] at hmem
      have hc : (!(acc.any (fun b => b.id = r.bugID))) = true := by simp [hmem]
      rw [hc, if_pos rfl, ih (acc ++ [mkBugInfo r]), dedupByIdFirst]
      rw [List.append_assoc, List.singleton_append]
      have hfe : (rs.filter (fun r2 =>
          !((acc ++ [mkBugInfo r]).any (fun b => b.id = r2.bugID)))) =
          ((rs.filter (fun r2 => !(acc.any (fun b => b.id = r2.bugID)))).filter
            (fun r2 => r2.bugID ≠ r.bugID)) := by
        rw [List.filter_filter]
        apply List.filter_congr
        intro a _
        simp only [List.any_append, List.any_cons, List.any_nil, Bool.or_false,
          Bool.not_or, mkBugInfo]
        by_cases h1 : a.bugID = r.bugID
        · simp [h1]
        · have h2 : r.bugID ≠ a.bugID := fun h => h1 h.symm
          simp [h1, h2]
      rw [hfe]

theorem keyBugs_eq_dedup (l : List Row) :
    keyBugs l = dedupByIdFirst (l.filter (fun r => r.bugID ≠ "" && r.module ≠ "")) := by
  rw [keyBugs, keyBugs_foldl_eq, List.nil_append]
  apply congrArg
  exact List.filter_true _

theorem metrics_key_bugs (rows : List Row) :
    (computeMetrics rows).1.key_bugs = keyBugs ((computeMetrics rows).2) := by
  by_cases h : List.isEmpty rows = true
  · rw [List.isEmpty_iff] at h
    subst h; rfl
  · rw [computeMetrics, if_neg h]

/-- **C4, as stated, is false**: on canonical (string-typed) rows the
`pd.notna` guards in the key-bug scan are always true and `row.get` always
finds the column, so a blank `Severity`/`Priority`/`Tester` cell is copied
verbatim into the entry instead of being replaced by `"Medium"`/`"N/A"`.
Concretely, a defect row with blank severity, priority and tester produces
the entry `{severity := "", priority := "", assigned_to := ""}`. -/
theorem C4_counterexample :
    (computeMetrics [({ bugID := "B1", module := "M1" } : Row)]).1.key_bugs =
      [{ id := "B1", module := "M1", severity := "", priority := "",
         status := "Open", assigned_to := "" }] ∧
    ∃ b ∈ (computeMetrics [({ bugID := "B1", module := "M1" } : Row)]).1.key_bugs,
      b.severity ≠ "Medium" ∧ b.priority ≠ "Medium" ∧ b.assigned_to ≠ "N/A" := by
  decide

/-- **C4, amended.** `key_bugs` is the de-duplication by `BugID` (first
occurrence winning) of the rows — as they stand at the end of the call —
having both `BugID` and `Module` non-empty, each entry annotated with the
row's `Module`, its `Severity` and `Priority` copied verbatim (the
`"Medium"` defaults fire only for missing/NaN cells, which cannot occur in a
canonical record set, so blank stays blank), the fixed status `"Open"`, and
the row's `Tester` copied verbatim (`"N/A"` likewise only for missing
cells). -/
theorem C4_amended_key_bugs (rows : List Row) :
    (computeMetrics rows).1.key_bugs =
      dedupByIdFirst (((computeMetrics rows).2).filter
        (fun r => r.bugID ≠ "" && r.module ≠ "")) := by
  rw [metrics_key_bugs, keyBugs_eq_dedup]

theorem mem_dedupByIdFirst :
    ∀ (l : List Row) (bg : BugInfo), bg ∈ dedupByIdFirst l → ∃ r ∈ l, bg = mkBugInfo r
  | [], bg => by
    intro h
    rw [dedupByIdFirst] at h
    cases h
  | r :: rs, bg => by
    intro h
    rw [dedupByIdFirst] at h
    rcases List.mem_cons.mp h with rfl | h
    · exact ⟨r, List.mem_cons_self r rs, rfl⟩
    · obtain ⟨r2, hr2, hbg⟩ :=
        mem_dedupByIdFirst (rs.filter (fun r2 => r2.bugID ≠ r.bugID)) bg h
      exact ⟨r2, List.mem_cons_of_mem r (List.mem_filter.mp hr2).1, hbg⟩
termination_by l => l.length
decreasing_by
  simp only [List.length_cons]
  exact Nat.lt_succ_of_le (List.length_filter_le _ _)

theorem mem_keyBugs_exists (l : List Row) (bg : BugInfo) (h : bg ∈ keyBugs l) :
    ∃ r ∈ l, (r.bugID ≠ "" ∧ r.module ≠ "") ∧ bg = mkBugInfo r := by
  rw [keyBugs_eq_dedup] at h
  obtain ⟨r, hr, hbg⟩ := mem_dedupByIdFirst _ bg h
  obtain ⟨hrl, hp⟩ := List.mem_filter.mp hr
  simp only [Bool.and_eq_true, decide_eq_true_eq] at hp
  exact ⟨r, hrl, hp, hbg⟩

theorem metrics_snd_mem (rows : List Row) (r : Row)
    (h : r ∈ (computeMetrics rows).2) :
    ∃ r0 ∈ rows, r.bugID = r0.bugID ∧ r.module = r0.module := by
  by_cases he : List.isEmpty rows = true
  · rw [List.isEmpty_iff] at he
    subst he
    cases h
  · rw [computeMetrics, if_neg he] at h
    simp only at h
    by_cases hfb : severityFallbackCond rows = true
    · simp only [if_pos hfb] at h
      obtain ⟨r0, hr0, rfl⟩ := List.mem_map.mp h
      exact ⟨r0, hr0, rfl, rfl⟩
    · simp only [if_neg hfb] at h
      exact ⟨r, h, rfl, rfl⟩

/-- **C10.** A row whose `Module` is blank is excluded from the key-bug
extraction even when its `BugID` is non-empty; hence a bug every occurrence
of which has an empty `Module` never appears in `key_bugs`. -/
theorem C10_blank_module_excluded (rows : List Row) (b : String)
    (h : ∀ r ∈ rows, r.bugID = b → r.module = "") :
    b ∉ ((computeMetrics rows).1.key_bugs).map (fun bg => bg.id) := by
  intro hmem
  obtain ⟨bg, hbg, hid⟩ := List.mem_map.mp hmem
  rw [metrics_key_bugs] at hbg
  obtain ⟨r, hr, ⟨hbne, hmne⟩, rfl⟩ := mem_keyBugs_exists _ _ hbg
  obtain ⟨r0, hr0, hbeq, hmeq⟩ := metrics_snd_mem rows r hr
  have hm0 : r0.module = "" := h r0 hr0 (by rw [← hbeq]; exact hid)
  exact hmne (by rw [hmeq, hm0])

/-- Witness for C10: a bug appearing only on a blank-module row is absent. -/
theorem C10_witness :
    "B1" ∉ ((computeMetrics [({ bugID := "B1" } : Row)]).1.key_bugs).map
      (fun bg => bg.id) :=
  C10_blank_module_excluded [{ bugID := "B1" }] "B1" (by decide)

/-! ## Quality-gate claims (C2) -/

/-- **C2, as stated, is false**: the missing-threshold default is the finite
sentinel `999`, not "effectively unconstrained" over *every* input triple.
With every threshold omitted, the input `(pass_rate, critical, major) =
(100, 1000, 0)` is REJECTED (both tiers fail `1000 ≤ 999`), while the truly
unconstrained reading of an absent threshold approves it. -/
theorem C2_counterexample :
    evaluate_release_recommendation {} 100 1000 0 = .REJECTED ∧
    evaluateUnconstrained {} 100 1000 0 = .APPROVED := by decide

theorem tierOkU_imp_tierOk (t : Tier) (pr : ℚ) (cd md : ℤ)
    (hpr : 0 ≤ pr) (hcd : cd ≤ 999) (hmd : md ≤ 999)
    (h : tierOkUnconstrained t pr cd md = true) : tierOk t pr cd md = true := by
  obtain ⟨mp, mc, mm⟩ := t
  rw [tierOkUnconstrained] at h
  rw [tierOk]
  simp only [Bool.and_eq_true, decide_eq_true_eq] at h ⊢
  cases mp <;> cases mc <;> cases mm <;> simp_all [Option.getD]

/-- **C2, amended.** Thresholds absent from the configuration default to
`min_pass_rate = 0` and to the finite sentinel `999` for the max-defect
bounds; consequently, *within the sentinel's range* — `pass_rate ≥ 0`,
`critical_defects ≤ 999` and `major_defects ≤ 999` — omitting thresholds
never yields REJECTED where the fully-unconstrained reading would not.
(Above 999 defects the sentinel does constrain, as the counterexample
shows.) -/
theorem C2_amended_permissive_defaults (g : ReleaseThresholds) (pr : ℚ) (cd md : ℤ)
    (hpr : 0 ≤ pr) (hcd : cd ≤ 999) (hmd : md ≤ 999) :
    evaluate_release_recommendation g pr cd md = .REJECTED →
      evaluateUnconstrained g pr cd md = .REJECTED := by
  intro h
  rw [evaluateUnconstrained]
  by_cases hua : tierOkUnconstrained g.approved pr cd md = true
  · exfalso
    have ha := tierOkU_imp_tierOk g.approved pr cd md hpr hcd hmd hua
    rw [evaluate_release_recommendation, if_pos ha] at h
    exact Recommendation.noConfusion h
  · rw [if_neg hua]
    by_cases huc : tierOkUnconstrained g.conditional pr cd md = true
    · exfalso
      have hc := tierOkU_imp_tierOk g.conditional pr cd md hpr hcd hmd huc
      rw [evaluate_release_recommendation] at h
      by_cases ha : tierOk g.approved pr cd md = true
      · rw [if_pos ha] at h; exact Recommendation.noConfusion h
      · rw [if_neg ha, if_pos hc] at h; exact Recommendation.noConfusion h
    · rw [if_neg huc]

/-- Witness for C2's amended statement: a profile whose conditional tier
requires a 70% pass rate rejects a 50% run under both readings. -/
theorem C2_witness :
    evaluateUnconstrained
      { approved := { min_pass_rate := some 90 },
        conditional := { min_pass_rate := some 70 } } 50 0 0 = .REJECTED :=
  C2_amended_permissive_defaults
    { approved := { min_pass_rate := some 90 },
      conditional := { min_pass_rate := some 70 } } 50 0 0
    (by decide) (by decide) (by decide) (by decide)

/-! ## Idempotence of `normalize_columns` (C9): stripping lemmas -/

theorem dropWhile_dropWhile {α : Type} (p : α → Bool) (l : List α) :
    (l.dropWhile p).dropWhile p = l.dropWhile p := by
  induction l with
  | nil => rfl
  | cons a t ih =>
    rw [List.dropWhile_cons]
    by_cases h : p a = true
    · rw [if_pos h]; exact ih
    · rw [if_neg h, List.dropWhile_cons, if_neg h]

theorem dropWhile_head_false {α : Type} (p : α → Bool) (l : List α) :
    ∀ a t, l.dropWhile p = a :: t → p a = false := by
  induction l with
  | nil => intro a t h; cases h
  | cons b u ih =>
    intro a t h
    rw [List.dropWhile_cons] at h
    by_cases hb : p b = true
    · rw [if_pos hb] at h; exact ih a t h
    · rw [if_neg hb] at h
      injection h with h1 _
      rw [← h1]
      exact Bool.eq_false_iff.mpr hb

theorem dropWhile_eq_self_of_head {α : Type} (p : α → Bool) (l : List α)
    (h : ∀ a t, l = a :: t → p a = false) : l.dropWhile p = l := by
  cases l with
  | nil => rfl
  | cons a t =>
    rw [List.dropWhile_cons, if_neg]
    rw [h a t rfl]
    simp

theorem head_false_of_isPrefix {α : Type} (p : α → Bool) (l l' : List α)
    (hpre : l' <+: l) (h : ∀ a t, l = a :: t → p a = false) :
    ∀ a t, l' = a :: t → p a = false := by
  intro a t heq
  obtain ⟨s, hs⟩ := hpre
  subst heq
  exact h a (t ++ s) (by rw [← hs]; rfl)

theorem head_false_rightStrip {α : Type} (p : α → Bool) (l : List α)
    (h : ∀ a t, l = a :: t → p a = false) :
    ∀ a t, (l.reverse.dropWhile p).reverse = a :: t → p a = false := by
  have hs : l.reverse.dropWhile p <:+ l.reverse := List.dropWhile_suffix p
  have hp := ( List.reverse_prefix).mpr hs
  rw [List.reverse_reverse] at hp
  exact head_false_of_isPrefix p l _ hp h

theorem pyStripList_idem (l : List Char) :
    pyStripList (pyStripList l) = pyStripList l := by
  have hmhead := dropWhile_head_false Char.isWhitespace l
  have hnhead :
      ∀ a t, (((l.dropWhile Char.isWhitespace).reverse.dropWhile
          Char.isWhitespace).reverse) = a :: t → Char.isWhitespace a = false :=
    head_false_rightStrip Char.isWhitespace _ hmhead
  rw [show pyStripList (pyStripList l) =
    (((pyStripList l).dropWhile Char.isWhitespace).reverse.dropWhile
      Char.isWhitespace).reverse from rfl]
  rw [show pyStripList l =
    ((l.dropWhile Char.isWhitespace).reverse.dropWhile Char.isWhitespace).reverse
    from rfl]
  rw [dropWhile_eq_self_of_head _ _ hnhead, List.reverse_reverse,
    dropWhile_dropWhile]

theorem pyStrip_idem (s : String) : pyStrip (pyStrip s) = pyStrip s :=
  congrArg (fun l => (⟨l⟩ : String)) (pyStripList_idem s.data)

/-! ## Idempotence of `normalize_columns` (C9): cell-transform lemmas -/

theorem astypeStr_exists (v : Value) : ∃ s, astypeStr v = .str s := by
  cases v <;> exact ⟨_, rfl⟩

theorem runTransform_total (v : Value) : ∃ q, runTransform v = .num q := by
  cases v with
  | str s =>
    cases hp : parseNumeric s with
    | some q => exact ⟨q, by simp [runTransform, fillnaNum, toNumericCoerce, hp]⟩
    | none => exact ⟨1, by simp [runTransform, fillnaNum, toNumericCoerce, hp]⟩
  | num q => exact ⟨q, rfl⟩
  | na => exact ⟨1, rfl⟩

theorem resultTransform_total (v : Value) :
    ∃ s, resultTransform v = .str s ∧
      s ∈ ["Pass", "Fail", "Blocked", "Skipped", "Not Executed"] := by
  obtain ⟨u, hu⟩ := astypeStr_exists (fillnaStr "Not Executed" v)
  rw [resultTransform, hu,
    show strLowerStrip (Value.str u) = Value.str (lowerStrip u) from rfl]
  cases hl : RESULT_MAPPINGS.lookup (lowerStrip u) with
  | some t =>
    refine ⟨t, by simp [mapDict, hl, fillnaStr], ?_⟩
    have hall : ∀ p ∈ RESULT_MAPPINGS,
        p.2 ∈ ["Pass", "Fail", "Blocked", "Skipped", "Not Executed"] := by decide
    exact hall _ (lookup_pairs_mem _ _ _ hl)
  | none => exact ⟨"Not Executed", by simp [mapDict, hl, fillnaStr], by decide⟩

theorem severityTransform_total (v : Value) :
    ∃ s, severityTransform v = .str s ∧
      s ∈ ["Critical", "Major", "Medium", "Minor", ""] := by
  obtain ⟨u, hu⟩ := astypeStr_exists v
  rw [severityTransform, hu,
    show strLowerStrip (Value.str u) = Value.str (lowerStrip u) from rfl]
  cases hl : SEVERITY_MAPPINGS.lookup (lowerStrip u) with
  | some t =>
    refine ⟨t, by simp [mapDict, hl, fillnaStr], ?_⟩
    have hall : ∀ p ∈ SEVERITY_MAPPINGS,
        p.2 ∈ ["Critical", "Major", "Medium", "Minor", ""] := by decide
    exact hall _ (lookup_pairs_mem _ _ _ hl)
  | none => exact ⟨"", by simp [mapDict, hl, fillnaStr], by decide⟩

theorem priorityTransform_total (v : Value) :
    ∃ s, priorityTransform v = .str s ∧
      s ∈ ["Highest", "High", "Medium", "Low", ""] := by
  obtain ⟨u, hu⟩ := astypeStr_exists v
  rw [priorityTransform, hu,
    show strLowerStrip (Value.str u) = Value.str (lowerStrip u) from rfl]
  cases hl : PRIORITY_MAPPINGS.lookup (lowerStrip u) with
  | some t =>
    refine ⟨t, by simp [mapDict, hl, fillnaStr], ?_⟩
    have hall : ∀ p ∈ PRIORITY_MAPPINGS,
        p.2 ∈ ["Highest", "High", "Medium", "Low", ""] := by decide
    exact hall _ (lookup_pairs_mem _ _ _ hl)
  | none => exact ⟨"", by simp [mapDict, hl, fillnaStr], by decide⟩

theorem stripTransform_total (v : Value) :
    ∃ s, stripTransform v = .str s ∧ pyStrip s = s := by
  obtain ⟨u, hu⟩ := astypeStr_exists v
  rw [stripTransform, hu]
  exact ⟨pyStrip u, rfl, pyStrip_idem u⟩

theorem runTransform_num (q : ℚ) : runTransform (.num q) = .num q := rfl

theorem resultTransform_fixed (s : String)
    (hs : s ∈ ["Pass", "Fail", "Blocked", "Skipped", "Not Executed"]) :
    resultTransform (.str s) = .str s := by
  fin_cases hs <;> decide

theorem severityTransform_fixed (s : String)
    (hs : s ∈ ["Critical", "Major", "Medium", "Minor", ""]) :
    severityTransform (.str s) = .str s := by
  fin_cases hs <;> decide

theorem priorityTransform_fixed (s : String)
    (hs : s ∈ ["Highest", "High", "Medium", "Low", ""]) :
    priorityTransform (.str s) = .str s := by
  fin_cases hs <;> decide

theorem stripTransform_fixed (s : String) (hs : pyStrip s = s) :
    stripTransform (.str s) = .str s := by
  rw [stripTransform, show astypeStr (Value.str s) = Value.str s from rfl,
    show strStrip (Value.str s) = Value.str (pyStrip s) from rfl, hs]

/-! ## Idempotence of `normalize_columns` (C9): column machinery -/

theorem mem_zip_applyRow (cols : List String) (label : String) (f : Value → Value) :
    ∀ (row : List Value) (p : String × Value),
      p ∈ cols.zip ((cols.zip row).map (fun q => if q.1 = label then f q.2 else q.2)) →
      (p.1 = label ∧ ∃ v, p.2 = f v) ∨ (p.1 ≠ label ∧ p ∈ cols.zip row) := by
  induction cols with
  | nil => intro row p hp; simp at hp
  | cons c cs ih =>
    intro row p hp
    cases row with
    | nil => simp at hp
    | cons v vs =>
      rw [List.zip_cons_cons, List.map_cons, List.zip_cons_cons] at hp
      rcases List.mem_cons.mp hp with heq | hp'
      · by_cases hc : c = label
        · subst heq
          exact Or.inl ⟨hc, v, by rw [if_pos hc]⟩
        · subst heq
          refine Or.inr ⟨hc, ?_⟩
          rw [if_neg hc]
          exact List.mem_cons_self _ _
      · rcases ih vs p hp' with h | h
        · exact Or.inl h
        · exact Or.inr ⟨h.1, List.mem_cons_of_mem _ h.2⟩

theorem applyRow_id (cols : List String) (row : List Value) (label : String)
    (f : Value → Value) (hlen : row.length = cols.length)
    (hfix : ∀ p ∈ cols.zip row, p.1 = label → f p.2 = p.2) :
    (cols.zip row).map (fun q => if q.1 = label then f q.2 else q.2) = row := by
  have h1 : (cols.zip row).map (fun q => if q.1 = label then f q.2 else q.2) =
      (cols.zip row).map Prod.snd := by
    apply List.map_congr_left
    intro q hq
    by_cases hql : q.1 = label
    · rw [if_pos hql]; exact hfix q hq hql
    · rw [if_neg hql]
  rw [h1]
  exact List.map_snd_zip cols row (le_of_eq hlen)

theorem applyCol_some (label : String) (f : Value → Value) (df d : DataFrame)
    (h : applyCol label f df = some d) :
    df.cols.count label = 1 ∧
    d = { df with rows := df.rows.map (fun row =>
      (df.cols.zip row).map (fun p => if p.1 = label then f p.2 else p.2)) } := by
  rw [applyCol] at h
  by_cases hc : df.cols.count label = 1
  · rw [if_pos hc] at h
    exact ⟨hc, (Option.some.inj h).symm⟩
  · rw [if_neg hc] at h; cases h

theorem applyCol_fixed (df : DataFrame) (label : String) (f : Value → Value)
    (hcount : df.cols.count label = 1)
    (hrows : ∀ row ∈ df.rows, row.length = df.cols.length ∧
      ∀ p ∈ df.cols.zip row, CellInv p.1 p.2)
    (hf : ∀ (c : String) (v : Value), CellInv c v → c = label → f v = v) :
    applyCol label f df = some df := by
  rw [applyCol, if_pos hcount]
  have h2 : ∀ row ∈ df.rows,
      (df.cols.zip row).map (fun p => if p.1 = label then f p.2 else p.2) = id row := by
    intro row hrow
    exact applyRow_id df.cols row label f (hrows row hrow).1
      (fun p hp hpl => hf p.1 p.2 ((hrows row hrow).2 p hp) hpl)
  rw [List.map_congr_left h2, List.map_id]

theorem applyCol_transport (df d : DataFrame) (label : String) (f : Value → Value)
    (h : applyCol label f df = some d)
    (P Q : String → Value → Prop)
    (hrowsP : ∀ row ∈ df.rows, row.length = df.cols.length ∧
      ∀ p ∈ df.cols.zip row, P p.1 p.2)
    (hQf : ∀ v, Q label (f v))
    (hPQ : ∀ c v, c ≠ label → P c v → Q c v) :
    d.cols = df.cols ∧
    ∀ row ∈ d.rows, row.length = d.cols.length ∧ ∀ p ∈ d.cols.zip row, Q p.1 p.2 := by
  obtain ⟨hcount, rfl⟩ := applyCol_some label f df d h
  refine ⟨rfl, ?_⟩
  intro row hrow
  obtain ⟨row0, hrow0, rfl⟩ := List.mem_map.mp hrow
  obtain ⟨hlen0, hP0⟩ := hrowsP row0 hrow0
  constructor
  · simp [List.length_zip, hlen0]
  · intro p hp
    rcases mem_zip_applyRow df.cols label f row0 p hp with ⟨hpl, v, hpv⟩ | ⟨hpl, hpmem⟩
    · rw [hpl, hpv]; exact hQf v
    · exact hPQ p.1 p.2 hpl (hP0 p hpmem)

theorem addMissing_fold_cols_sub :
    ∀ (cats : List String) (acc : DataFrame),
      acc.cols ⊆ (cats.foldl addMissingStep acc).cols := by
  intro cats
  induction cats with
  | nil => intro acc x hx; exact hx
  | cons c cats ih =>
    intro acc x hx
    rw [List.foldl_cons]
    rw [addMissingStep]
    by_cases hc : c ∈ acc.cols
    · rw [if_pos hc]; exact ih acc hx
    · rw [if_neg hc]
      exact ih _ (List.mem_append.mpr (Or.inl hx))

theorem addMissing_fold_mem :
    ∀ (cats : List String) (acc : DataFrame) (c : String),
      c ∈ cats → c ∈ (cats.foldl addMissingStep acc).cols := by
  intro cats
  induction cats with
  | nil => intro acc c hc; cases hc
  | cons d cats ih =>
    intro acc c hc
    rw [List.foldl_cons]
    rcases List.mem_cons.mp hc with rfl | hc
    · apply addMissing_fold_cols_sub cats (addMissingStep acc c)
      rw [addMissingStep]
      by_cases hd : c ∈ acc.cols
      · rw [if_pos hd]; exact hd
      · rw [if_neg hd]
        exact List.mem_append.mpr (Or.inr (List.mem_singleton.mpr rfl))
    · exact ih _ c hc

theorem addMissing_fold_cols_cases :
    ∀ (cats : List String) (acc : DataFrame) (c : String),
      c ∈ (cats.foldl addMissingStep acc).cols → c ∈ acc.cols ∨ c ∈ cats := by
  intro cats
  induction cats with
  | nil => intro acc c hc; exact Or.inl hc
  | cons d cats ih =>
    intro acc c hc
    rw [List.foldl_cons] at hc
    rcases ih (addMissingStep acc d) c hc with h | h
    · rw [addMissingStep] at h
      by_cases hd : d ∈ acc.cols
      · rw [if_pos hd] at h; exact Or.inl h
      · rw [if_neg hd] at h
        rcases List.mem_append.mp h with h | h
        · exact Or.inl h
        · exact Or.inr (List.mem_cons.mpr (Or.inl (List.mem_singleton.mp h)))
    · exact Or.inr (List.mem_cons_of_mem d h)

theorem addMissing_fold_wf :
    ∀ (cats : List String) (acc : DataFrame),
      (∀ row ∈ acc.rows, row.length = acc.cols.length) →
      ∀ row ∈ (cats.foldl addMissingStep acc).rows,
        row.length = (cats.foldl addMissingStep acc).cols.length := by
  intro cats
  induction cats with
  | nil => intro acc h; exact h
  | cons c cats ih =>
    intro acc h
    rw [List.foldl_cons]
    apply ih
    rw [addMissingStep]
    by_cases hc : c ∈ acc.cols
    · rw [if_pos hc]; exact h
    · rw [if_neg hc]
      intro row hrow
      obtain ⟨row0, hrow0, rfl⟩ := List.mem_map.mp hrow
      simp [h row0 hrow0]

theorem addMissing_fold_id :
    ∀ (cats : List String) (acc : DataFrame),
      (∀ c ∈ cats, c ∈ acc.cols) → cats.foldl addMissingStep acc = acc := by
  intro cats
  induction cats with
  | nil => intro acc _; rfl
  | cons c cats ih =>
    intro acc h
    rw [List.foldl_cons, addMissingStep, if_pos (h c (List.mem_cons_self c cats))]
    exact ih acc (fun d hd => h d (List.mem_cons_of_mem c hd))

theorem renameCol_idem (c : String) : renameCol (renameCol c) = renameCol c := by
  cases hl : CANONICAL_COLUMNS.lookup (lowerStrip c) with
  | none =>
    have h1 : renameCol c = c := by rw [renameCol, hl]; rfl
    rw [h1, h1]
  | some t =>
    have h1 : renameCol c = t := by rw [renameCol, hl]; rfl
    rw [h1]
    have hall : ∀ p ∈ CANONICAL_COLUMNS, renameCol p.2 = p.2 := by decide
    exact hall _ (lookup_pairs_mem _ _ _ hl)

/-- A `Good` DataFrame is a fixed point of `normalize_columns`. -/
theorem normalize_fixed (df : DataFrame) (h : Good df) :
    normalize_columns df = some df := by
  obtain ⟨⟨hren, hcanon, hcounts⟩, hrows⟩ := h
  obtain ⟨hcRun, hcResult, hcSeverity, hcPriority, hcTCID, hcDesc, hcModule,
    hcTester, hcBugID⟩ := hcounts
  have h1 : renameStep df = df := by
    rw [renameStep]
    have hmap : df.cols.map renameCol = df.cols := by
      have h2 : ∀ c ∈ df.cols, renameCol c = id c := fun c hc => hren c hc
      rw [List.map_congr_left h2, List.map_id]
    rw [hmap]
  have h2 : addMissing df = df := addMissing_fold_id canonicalOrder df hcanon
  have hfRun : applyCol "Run" runTransform df = some df :=
    applyCol_fixed df _ _ hcRun hrows (fun c v hinv hc => by
      obtain ⟨q, rfl⟩ := hinv.1 hc
      rfl)
  have hfResult : applyCol "Result" resultTransform df = some df :=
    applyCol_fixed df _ _ hcResult hrows (fun c v hinv hc => by
      obtain ⟨s, rfl, hs⟩ := hinv.2.1 hc
      exact resultTransform_fixed s hs)
  have hfSeverity : applyCol "Severity" severityTransform df = some df :=
    applyCol_fixed df _ _ hcSeverity hrows (fun c v hinv hc => by
      obtain ⟨s, rfl, hs⟩ := hinv.2.2.1 hc
      exact severityTransform_fixed s hs)
  have hfPriority : applyCol "Priority" priorityTransform df = some df :=
    applyCol_fixed df _ _ hcPriority hrows (fun c v hinv hc => by
      obtain ⟨s, rfl, hs⟩ := hinv.2.2.2.1 hc
      exact priorityTransform_fixed s hs)
  have hfTCID : applyCol "TestCaseID" stripTransform df = some df :=
    applyCol_fixed df _ _ hcTCID hrows (fun c v hinv hc => by
      obtain ⟨s, rfl, hs⟩ := hinv.2.2.2.2.1 hc
      exact stripTransform_fixed s hs)
  have hfDesc : applyCol "Description" stripTransform df = some df :=
    applyCol_fixed df _ _ hcDesc hrows (fun c v hinv hc => by
      obtain ⟨s, rfl, hs⟩ := hinv.2.2.2.2.2.1 hc
      exact stripTransform_fixed s hs)
  have hfModule : applyCol "Module" stripTransform df = some df :=
    applyCol_fixed df _ _ hcModule hrows (fun c v hinv hc => by
      obtain ⟨s, rfl, hs⟩ := hinv.2.2.2.2.2.2.1 hc
      exact stripTransform_fixed s hs)
  have hfTester : applyCol "Tester" stripTransform df = some df :=
    applyCol_fixed df _ _ hcTester hrows (fun c v hinv hc => by
      obtain ⟨s, rfl, hs⟩ := hinv.2.2.2.2.2.2.2.1 hc
      exact stripTransform_fixed s hs)
  have hfBugID : applyCol "BugID" stripTransform df = some df :=
    applyCol_fixed df _ _ hcBugID hrows (fun c v hinv hc => by
      obtain ⟨s, rfl, hs⟩ := hinv.2.2.2.2.2.2.2.2 hc
      exact stripTransform_fixed s hs)
  rw [normalize_columns, h1, h2, hfRun, Option.some_bind, hfResult,
    Option.some_bind, hfSeverity, Option.some_bind, hfPriority, Option.some_bind,
    hfTCID, Option.some_bind, hfDesc, Option.some_bind, hfModule,
    Option.some_bind, hfTester, Option.some_bind, hfBugID]

/-- The output of `normalize_columns` is always `Good`. -/
theorem normalize_good (df out : DataFrame)
    (hwf : ∀ row ∈ df.rows, row.length = df.cols.length)
    (h : normalize_columns df = some out) : Good out := by
  rw [normalize_columns] at h
  obtain ⟨d1, h1, h⟩ := Option.bind_eq_some.mp h
  obtain ⟨d2, h2, h⟩ := Option.bind_eq_some.mp h
  obtain ⟨d3, h3, h⟩ := Option.bind_eq_some.mp h
  obtain ⟨d4, h4, h⟩ := Option.bind_eq_some.mp h
  obtain ⟨d5, h5, h⟩ := Option.bind_eq_some.mp h
  obtain ⟨d6, h6, h⟩ := Option.bind_eq_some.mp h
  obtain ⟨d7, h7, h⟩ := Option.bind_eq_some.mp h
  obtain ⟨d8, h8, h9⟩ := Option.bind_eq_some.mp h
  have hgwf : ∀ row ∈ (addMissing (renameStep df)).rows,
      row.length = (addMissing (renameStep df)).cols.length := by
    apply addMissing_fold_wf
    intro row hrow
    simp only [renameStep, List.length_map]
    exact hwf row hrow
  have hP0 : ∀ row ∈ (addMissing (renameStep df)).rows,
      row.length = (addMissing (renameStep df)).cols.length ∧
      ∀ p ∈ (addMissing (renameStep df)).cols.zip row, True :=
    fun row hrow => ⟨hgwf row hrow, fun _ _ => trivial⟩
  have t1 := applyCol_transport _ d1 "Run" runTransform h1
    (fun _ _ => True) (fun c v => InvRun c v) hP0
    (fun v _ => runTransform_total v)
    (fun c v hne _ hc => absurd hc hne)
  have t2 := applyCol_transport d1 d2 "Result" resultTransform h2
    (fun c v => InvRun c v) (fun c v => InvRun c v ∧ InvResult c v) t1.2
    (fun v => ⟨fun hc => absurd hc (by decide), fun _ => resultTransform_total v⟩)
    (fun c v hne hp => ⟨hp, fun hc => absurd hc hne⟩)
  have t3 := applyCol_transport d2 d3 "Severity" severityTransform h3
    (fun c v => InvRun c v ∧ InvResult c v)
    (fun c v => InvRun c v ∧ InvResult c v ∧ InvSeverity c v) t2.2
    (fun v => ⟨fun hc => absurd hc (by decide), fun hc => absurd hc (by decide),
      fun _ => severityTransform_total v⟩)
    (fun c v hne hp => ⟨hp.1, hp.2, fun hc => absurd hc hne⟩)
  have t4 := applyCol_transport d3 d4 "Priority" priorityTransform h4
    (fun c v => InvRun c v ∧ InvResult c v ∧ InvSeverity c v)
    (fun c v => InvRun c v ∧ InvResult c v ∧ InvSeverity c v ∧ InvPriority c v) t3.2
    (fun v => ⟨fun hc => absurd hc (by decide), fun hc => absurd hc (by decide),
      fun hc => absurd hc (by decide), fun _ => priorityTransform_total v⟩)
    (fun c v hne hp => ⟨hp.1, hp.2.1, hp.2.2, fun hc => absurd hc hne⟩)
  have t5 := applyCol_transport d4 d5 "TestCaseID" stripTransform h5
    (fun c v => InvRun c v ∧ InvResult c v ∧ InvSeverity c v ∧ InvPriority c v)
    (fun c v => InvRun c v ∧ InvResult c v ∧ InvSeverity c v ∧ InvPriority c v ∧
      InvStr "TestCaseID" c v) t4.2
    (fun v => ⟨fun hc => absurd hc (by decide), fun hc => absurd hc (by decide),
      fun hc => absurd hc (by decide), fun hc => absurd hc (by decide),
      fun _ => stripTransform_total v⟩)
    (fun c v hne hp => ⟨hp.1, hp.2.1, hp.2.2.1, hp.2.2.2, fun hc => absurd hc hne⟩)
  have t6 := applyCol_transport d5 d6 "Description" stripTransform h6
    (fun c v => InvRun c v ∧ InvResult c v ∧ InvSeverity c v ∧ InvPriority c v ∧
      InvStr "TestCaseID" c v)
    (fun c v => InvRun c v ∧ InvResult c v ∧ InvSeverity c v ∧ InvPriority c v ∧
      InvStr "TestCaseID" c v ∧ InvStr "Description" c v) t5.2
    (fun v => ⟨fun hc => absurd hc (by decide), fun hc => absurd hc (by decide),
      fun hc => absurd hc (by decide), fun hc => absurd hc (by decide),
      fun hc => absurd hc (by decide), fun _ => stripTransform_total v⟩)
    (fun c v hne hp =>
      ⟨hp.1, hp.2.1, hp.2.2.1, hp.2.2.2.1, hp.2.2.2.2, fun hc => absurd hc hne⟩)
  have t7 := applyCol_transport d6 d7 "Module" stripTransform h7
    (fun c v => InvRun c v ∧ InvResult c v ∧ InvSeverity c v ∧ InvPriority c v ∧
      InvStr "TestCaseID" c v ∧ InvStr "Description" c v)
    (fun c v => InvRun c v ∧ InvResult c v ∧ InvSeverity c v ∧ InvPriority c v ∧
      InvStr "TestCaseID" c v ∧ InvStr "Description" c v ∧ InvStr "Module" c v) t6.2
    (fun v => ⟨fun hc => absurd hc (by decide), fun hc => absurd hc (by decide),
      fun hc => absurd hc (by decide), fun hc => absurd hc (by decide),
      fun hc => absurd hc (by decide), fun hc => absurd hc (by decide),
      fun _ => stripTransform_total v⟩)
    (fun c v hne hp =>
      ⟨hp.1, hp.2.1, hp.2.2.1, hp.2.2.2.1, hp.2.2.2.2.1, hp.2.2.2.2.2,
        fun hc => absurd hc hne⟩)
  have t8 := applyCol_transport d7 d8 "Tester" stripTransform h8
    (fun c v => InvRun c v ∧ InvResult c v ∧ InvSeverity c v ∧ InvPriority c v ∧
      InvStr "TestCaseID" c v ∧ InvStr "Description" c v ∧ InvStr "Module" c v)
    (fun c v => InvRun c v ∧ InvResult c v ∧ InvSeverity c v ∧ InvPriority c v ∧
      InvStr "TestCaseID" c v ∧ InvStr "Description" c v ∧ InvStr "Module" c v ∧
      InvStr "Tester" c v) t7.2
    (fun v => ⟨fun hc => absurd hc (by decide), fun hc => absurd hc (by decide),
      fun hc => absurd hc (by decide), fun hc => absurd hc (by decide),
      fun hc => absurd hc (by decide), fun hc => absurd hc (by decide),
      fun hc => absurd hc (by decide), fun _ => stripTransform_total v⟩)
    (fun c v hne hp =>
      ⟨hp.1, hp.2.1, hp.2.2.1, hp.2.2.2.1, hp.2.2.2.2.1, hp.2.2.2.2.2.1,
        hp.2.2.2.2.2.2, fun hc => absurd hc hne⟩)
  have t9 := applyCol_transport d8 out "BugID" stripTransform h9
    (fun c v => InvRun c v ∧ InvResult c v ∧ InvSeverity c v ∧ InvPriority c v ∧
      InvStr "TestCaseID" c v ∧ InvStr "Description" c v ∧ InvStr "Module" c v ∧
      InvStr "Tester" c v)
    (fun c v => CellInv c v) t8.2
    (fun v => ⟨fun hc => absurd hc (by decide), fun hc => absurd hc (by decide),
      fun hc => absurd hc (by decide), fun hc => absurd hc (by decide),
      fun hc => absurd hc (by decide), fun hc => absurd hc (by decide),
      fun hc => absurd hc (by decide), fun hc => absurd hc (by decide),
      fun _ => stripTransform_total v⟩)
    (fun c v hne hp =>
      ⟨hp.1, hp.2.1, hp.2.2.1, hp.2.2.2.1, hp.2.2.2.2.1, hp.2.2.2.2.2.1,
        hp.2.2.2.2.2.2.1, hp.2.2.2.2.2.2.2, fun hc => absurd hc hne⟩)
  have hcols : out.cols = (addMissing (renameStep df)).cols := by
    rw [t9.1, t8.1, t7.1, t6.1, t5.1, t4.1, t3.1, t2.1, t1.1]
  have k1 : (addMissing (renameStep df)).cols.count "Run" = 1 :=
    (applyCol_some _ _ _ _ h1).1
  have k2 : (addMissing (renameStep df)).cols.count "Result" = 1 := by
    have := (applyCol_some _ _ _ _ h2).1
    rwa [t1.1] at this
  have k3 : (addMissing (renameStep df)).cols.count "Severity" = 1 := by
    have := (applyCol_some _ _ _ _ h3).1
    rwa [t2.1, t1.1] at this
  have k4 : (addMissing (renameStep df)).cols.count "Priority" = 1 := by
    have := (applyCol_some _ _ _ _ h4).1
    rwa [t3.1, t2.1, t1.1] at this
  have k5 : (addMissing (renameStep df)).cols.count "TestCaseID" = 1 := by
    have := (applyCol_some _ _ _ _ h5).1
    rwa [t4.1, t3.1, t2.1, t1.1] at this
  have k6 : (addMissing (renameStep df)).cols.count "Description" = 1 := by
    have := (applyCol_some _ _ _ _ h6).1
    rwa [t5.1, t4.1, t3.1, t2.1, t1.1] at this
  have k7 : (addMissing (renameStep df)).cols.count "Module" = 1 := by
    have := (applyCol_some _ _ _ _ h7).1
    rwa [t6.1, t5.1, t4.1, t3.1, t2.1, t1.1] at this
  have k8 : (addMissing (renameStep df)).cols.count "Tester" = 1 := by
    have := (applyCol_some _ _ _ _ h8).1
    rwa [t7.1, t6.1, t5.1, t4.1, t3.1, t2.1, t1.1] at this
  have k9 : (addMissing (renameStep df)).cols.count "BugID" = 1 := by
    have := (applyCol_some _ _ _ _ h9).1
    rwa [t8.1, t7.1, t6.1, t5.1, t4.1, t3.1, t2.1, t1.1] at this
  refine ⟨⟨?_, ?_, ?_⟩, t9.2⟩
  · intro c hc
    rw [hcols] at hc
    rcases addMissing_fold_cols_cases canonicalOrder (renameStep df) c hc with hm | hm
    · obtain ⟨c0, _, rfl⟩ := List.mem_map.mp hm
      exact renameCol_idem c0
    · have hco : ∀ c ∈ canonicalOrder, renameCol c = c := by decide
      exact hco c hm
  · intro c hcn
    rw [hcols]
    exact addMissing_fold_mem canonicalOrder (renameStep df) c hcn
  · rw [hcols]
    exact ⟨k1, k2, k3, k4, k5, k6, k7, k8, k9⟩

/-- **C9.** `normalize_columns` is idempotent on its own output: whenever a
raw record set (aligned rows of labelled cells) normalizes successfully, a
second normalization of the result returns it unchanged — same column names,
same cell values. -/
theorem C9_normalize_idempotent (df out : DataFrame)
    (hwf : ∀ row ∈ df.rows, row.length = df.cols.length)
    (h : normalize_columns df = some out) :
    normalize_columns out = some out :=
  normalize_fixed out (normalize_good df out hwf h)

/-- Witness for C9: the normalization of a one-column raw frame is a fixed
point of `normalize_columns`. -/
theorem C9_witness :
    normalize_columns
      { cols := ["Result", "Module", "TestCaseID", "Description", "Run", "BugID",
                 "Priority", "Severity", "Duration", "Tester"],
        rows := [[Value.str "Pass", Value.str "", Value.str "", Value.str "",
                  Value.num 1, Value.str "", Value.str "", Value.str "",
                  Value.str "", Value.str ""]] } =
    some
      { cols := ["Result", "Module", "TestCaseID", "Description", "Run", "BugID",
                 "Priority", "Severity", "Duration", "Tester"],
        rows := [[Value.str "Pass", Value.str "", Value.str "", Value.str "",
                  Value.num 1, Value.str "", Value.str "", Value.str "",
                  Value.str "", Value.str ""]] } :=
  C9_normalize_idempotent { cols := ["status"], rows := [[Value.str "pass"]] } _
    (by decide) (by decide)

end TSR
